import Mathlib

/-!
Verification of the social deep-link resolution engine of
`src/scripts/socialDeepLinks.js` (the first module of that file: the
IIFE installing the `onClick` capture listener).

The JavaScript is shallowly embedded:
  * pure helpers (`isMobile`, `isDesktop`, `getUsernameFromUrl`,
    `buildIOSDeepLink`, ...) become Lean functions over an explicit
    environment snapshot;
  * the stateful orchestrator (`openWithFallback`, the modal, the
    timers and DOM listeners) becomes an explicit state type `St`
    plus a total step function `step : Env → St → Ev → St` over an
    event alphabet covering clicks, detection signals (visibility,
    pagehide, blur, focus) and each timer firing;
  * JavaScript exceptions are modelled by explicit failure results
    (`Act.attemptFailed`, `Option` for URL parsing);
  * machine time is a `Nat` clock (`now`) carried in the state.

Purely presentational statements of the source (store-button text and
icons, focus management, the hidden `<a>` element used to click a URL,
console logging) have no observable effect on the properties below and
are not modelled; every branch that changes control flow, timers,
listeners, the modal state or performs a navigation is.
-/

namespace SocialDeepLinks

/-! ## String helpers (JS semantics) -/

/-- Does `pat` occur at the start of `s`? -/
def charsStartWith : List Char → List Char → Bool
  | [], _ => true
  | _ :: _, [] => false
  | p :: ps, c :: cs => p = c && charsStartWith ps cs

/-- Does `pat` occur anywhere in `s`? -/
def charsContain (s pat : List Char) : Bool :=
  match s with
  | [] => pat.isEmpty
  | _ :: cs => charsStartWith pat s || charsContain cs pat

/-- Substring test over strings, i.e. JavaScript
`String.prototype.includes`. -/
def strContains (s pat : String) : Bool :=
  charsContain s.toList pat.toList

/-- JavaScript `String.prototype.startsWith`. -/
def strStartsWith (s pat : String) : Bool :=
  charsStartWith pat.toList s.toList

/-- ASCII lower-casing, i.e. `String.prototype.toLowerCase` on the
ASCII strings this module compares (all its patterns are ASCII). -/
def strToLower (s : String) : String :=
  String.mk (s.toList.map Char.toLower)

/-- Split at every occurrence of a single separator character, i.e.
JavaScript `'…'.split('/')` as used on URL pathnames. -/
def splitChar (sep : Char) : List Char → List (List Char)
  | [] => [[]]
  | c :: cs =>
    let r := splitChar sep cs
    if c = sep then [] :: r
    else
      match r with
      | h :: t => (c :: h) :: t
      | [] => [[c]]

/-- Split a list at the first occurrence of `sep` (dropping it);
`none` when `sep` does not occur. -/
def breakOnFirst (sep : List Char) : List Char → Option (List Char × List Char)
  | [] => if sep.isEmpty then some ([], []) else none
  | c :: cs =>
    if charsStartWith sep (c :: cs) then some ([], (c :: cs).drop sep.length)
    else
      match breakOnFirst sep cs with
      | some (pre, post) => some (c :: pre, post)
      | none => none

/-- Case-insensitive alternation test: models a regex of the form
`/lit1|lit2|.../i` applied with `.test(s)` (every alternative in the
regexes of this module is a literal, so the regex is a case-insensitive
substring disjunction). -/
def matchAnyCI (pats : List String) (s : String) : Bool :=
  pats.any (fun p => strContains (strToLower s) (strToLower p))

/-- JavaScript `a || b` on strings: the empty string is falsy. -/
def jsOr (a b : String) : String :=
  if a = "" then b else a

/-! ## Environment snapshot and classifier

`Env` freezes the ambient browser facts read by the module:
`navigator.userAgent`, the two `matchMedia` queries, touch capability
(`'ontouchstart' in window || navigator.maxTouchPoints > 0`),
`window.innerWidth` and `window.MSStream`.  `navThrows u` models
"every navigation method for `u` throws" (both the
`window.location.href` assignment and the hidden-link `click()`
fallback inside `attemptOpenApp`'s `try/catch` layers). -/

structure Env where
  ua : String
  coarsePointer : Bool
  noHover : Bool
  hasTouch : Bool
  innerWidth : Nat
  msStream : Bool
  navThrows : String → Bool

/-- The mobile user-agent alternation used by both classifiers:
`/Android|webOS|iPhone|iPad|iPod|BlackBerry|IEMobile|Opera Mini/i`. -/
def mobileUAPats : List String :=
  ["Android", "webOS", "iPhone", "iPad", "iPod", "BlackBerry", "IEMobile", "Opera Mini"]

/-- The desktop OS alternation: `/Windows|Macintosh|Linux|X11/i`. -/
def desktopOSPats : List String :=
  ["Windows", "Macintosh", "Linux", "X11"]

/-- `isMobile` (source lines 34-55): trust a mobile user agent; otherwise
require coarse pointer, no hover, and touch on a small screen. -/
def isMobile (env : Env) : Bool :=
  let isMobileUA := matchAnyCI mobileUAPats env.ua
  if isMobileUA then
    true
  else
    let hasCoarsePointer := env.coarsePointer
    let noHover := env.noHover
    let isSmallScreen := env.innerWidth ≤ 768
    let hasTouch := isSmallScreen && env.hasTouch
    hasCoarsePointer && noHover && hasTouch

/-- `isDesktop` (source lines 61-70). -/
def isDesktop (env : Env) : Bool :=
  let isDesktopOS := matchAnyCI desktopOSPats env.ua
  let isMobileDevice := matchAnyCI mobileUAPats env.ua
  isDesktopOS && !isMobileDevice && decide (env.innerWidth > 768)

/-- `isIOS` (source line 72). -/
def isIOS (env : Env) : Bool :=
  matchAnyCI ["iPad", "iPhone", "iPod"] env.ua && !env.msStream

/-- `isAndroid` (source lines 73-80). -/
def isAndroid (env : Env) : Bool :=
  let androidUA := matchAnyCI ["Android"] env.ua
  let isDesktopBrowser := matchAnyCI desktopOSPats env.ua && !matchAnyCI ["Mobile"] env.ua
  androidUA && !isDesktopBrowser

/-! ## URL parsing and token extraction -/

/-- The pieces of a parsed absolute URL that this module reads. -/
structure UrlParts where
  scheme : String
  host : String
  pathname : String
  deriving Repr, DecidableEq

/-- Valid scheme per WHATWG: a letter followed by letters, digits,
`+`, `-` or `.`. -/
def validScheme (s : String) : Bool :=
  match s.toList with
  | [] => false
  | c :: cs => c.isAlpha && cs.all (fun d => d.isAlphanum || d = '+' || d = '-' || d = '.')

/-- Schemes for which the WHATWG parser requires a nonempty host. -/
def specialSchemes : List String :=
  ["http", "https", "ws", "wss", "ftp", "file"]

/-- Models the WHATWG `new URL(s)` constructor (no base argument) for
the absolute URLs handled by this module.  Returns `none` exactly when
the constructor throws (no `scheme://`, malformed scheme, or a special
scheme with an empty host).  The pathname stops at `?` or `#`; a URL
with no path segment gets pathname `""` where a browser reports `"/"`
for special schemes — the only consumer (`getUsernameFromUrl`) splits
on `/` and discards empty segments, so the two are observably equal. -/
def parseURL (s : String) : Option UrlParts :=
  match breakOnFirst "://".toList s.toList with
  | none => none
  | some (schemeChars, restChars) =>
    let scheme := String.mk schemeChars
    if validScheme scheme then
      let afterHost := restChars.dropWhile (fun c => c ≠ '/' && c ≠ '?' && c ≠ '#')
      let host := String.mk (restChars.takeWhile (fun c => c ≠ '/' && c ≠ '?' && c ≠ '#'))
      let path := String.mk (afterHost.takeWhile (fun c => c ≠ '?' && c ≠ '#'))
      if specialSchemes.contains (strToLower scheme) && host = "" then none
      else some { scheme := scheme, host := host, pathname := path }
    else none

/-- `getUsernameFromUrl` (source lines 315-323): first nonempty path
segment of the parsed URL; the `catch` branch yields `''`. -/
def getUsernameFromUrl (url : String) : String :=
  match parseURL url with
  | none => ""
  | some u =>
    let parts := (splitChar '/' u.pathname.toList).filter (fun p => !p.isEmpty)
    String.mk ((parts.head?).getD [])

/-! ## encodeURIComponent -/

/-- Characters `encodeURIComponent` leaves unescaped:
`A-Z a-z 0-9 - _ . ! ~ * ' ( )`. -/
def uriUnreserved (c : Char) : Bool :=
  c.isAlphanum || c = '-' || c = '_' || c = '.' || c = '!' || c = '~' ||
    c = '*' || c = Char.ofNat 39 || c = '(' || c = ')'

def hexDigit (n : Nat) : Char :=
  if n < 10 then Char.ofNat (48 + n) else Char.ofNat (55 + n)

/-- The UTF-8 bytes of a character. -/
def utf8Bytes (c : Char) : List Nat :=
  let n := c.toNat
  if n < 0x80 then [n]
  else if n < 0x800 then [0xC0 + n / 0x40, 0x80 + n % 0x40]
  else if n < 0x10000 then [0xE0 + n / 0x1000, 0x80 + n / 0x40 % 0x40, 0x80 + n % 0x40]
  else [0xF0 + n / 0x40000, 0x80 + n / 0x1000 % 0x40, 0x80 + n / 0x40 % 0x40, 0x80 + n % 0x40]

/-- Percent-encode one character as its UTF-8 bytes. -/
def pctEncodeChar (c : Char) : List Char :=
  (utf8Bytes c).foldr
    (fun b acc => '%' :: hexDigit (b / 16) :: hexDigit (b % 16) :: acc) []

def encodeURIComponent (s : String) : String :=
  String.mk (s.toList.foldr (fun c acc => if uriUnreserved c then c :: acc else pctEncodeChar c ++ acc) [])

/-! ## Target resolution: deep-link builders

`AppUrl` is the value passed to `openWithFallback` as `appUrl`: either a
plain scheme string, or (for the email platform) the
`{primary, fallback, web}` object. -/

inductive AppUrl where
  | simple (url : String)
  | emailChain (primary fallback web : String)
  deriving Repr, DecidableEq

/-- The attributes read from a clicked `.social-link` / `.email-link`
element: `href`, `data-platform`, `data-email`, `data-name`.  `""`
models a missing attribute (JavaScript `null`, falsy like `''`). -/
structure LinkData where
  href : String
  platform : String
  dataEmail : String
  dataName : String
  deriving Repr, DecidableEq

def emailSubject : String := "Contact from Digital Business Card"

def emailBodyOf (name : String) : String :=
  "Hello " ++ jsOr name "there" ++ ",\n\n"

/-- The Gmail web-compose URL built for the email platform. -/
def gmailComposeUrl (email name : String) : String :=
  "https://mail.google.com/mail/?view=cm&fs=1&to=" ++ encodeURIComponent email ++
    "&su=" ++ encodeURIComponent emailSubject ++
    "&body=" ++ encodeURIComponent (emailBodyOf name)

def mailtoUrlOf (email name : String) : String :=
  "mailto:" ++ encodeURIComponent email ++
    "?subject=" ++ encodeURIComponent emailSubject ++
    "&body=" ++ encodeURIComponent (emailBodyOf name)

def gmailAppUrl (email name : String) : String :=
  "googlegmail://co?to=" ++ encodeURIComponent email ++
    "&subject=" ++ encodeURIComponent emailSubject ++
    "&body=" ++ encodeURIComponent (emailBodyOf name)

/-- `buildIOSDeepLink` (source lines 325-373). -/
def buildIOSDeepLink (platform webUrl : String) (link : LinkData) : Option AppUrl :=
  let username := getUsernameFromUrl webUrl
  if platform = "instagram" then
    if username ≠ "" then some (.simple ("instagram://user?username=" ++ encodeURIComponent username)) else none
  else if platform = "twitter" then
    if username ≠ "" then some (.simple ("twitter://user?screen_name=" ++ encodeURIComponent username)) else none
  else if platform = "linkedin" then
    if username ≠ "" then some (.simple ("linkedin://in/" ++ encodeURIComponent username)) else none
  else if platform = "facebook" then
    if username ≠ "" then some (.simple ("fb://profile/" ++ encodeURIComponent username)) else none
  else if platform = "email" then
    let email := link.dataEmail
    let name := link.dataName
    if email = "" then none
    else some (.emailChain (gmailAppUrl email name) (mailtoUrlOf email name) (gmailComposeUrl email name))
  else none

/-- `buildAndroidDeepLink` (source lines 375-433).  After the source's
"CRITICAL FIX" to direct schemes, it builds exactly the same strings as
the iOS builder (only the local variable names differ in the source). -/
def buildAndroidDeepLink (platform webUrl : String) (link : LinkData) : Option AppUrl :=
  let username := getUsernameFromUrl webUrl
  if platform = "instagram" then
    if username ≠ "" then some (.simple ("instagram://user?username=" ++ encodeURIComponent username)) else none
  else if platform = "twitter" then
    if username ≠ "" then some (.simple ("twitter://user?screen_name=" ++ encodeURIComponent username)) else none
  else if platform = "linkedin" then
    if username ≠ "" then some (.simple ("linkedin://in/" ++ encodeURIComponent username)) else none
  else if platform = "facebook" then
    if username ≠ "" then some (.simple ("fb://profile/" ++ encodeURIComponent username)) else none
  else if platform = "email" then
    let email := link.dataEmail
    let name := link.dataName
    if email = "" then none
    else some (.emailChain (gmailAppUrl email name) (mailtoUrlOf email name) (gmailComposeUrl email name))
  else none

/-- `getPlatformFromContext` (source lines 764-791); `""` models the
`null` return. -/
def getPlatformFromContext (webUrl : String) (appUrl : AppUrl) : String :=
  let byWeb :=
    if webUrl ≠ "" then
      let u := strToLower webUrl
      if strContains u "instagram.com" then "instagram"
      else if strContains u "facebook.com" then "facebook"
      else if strContains u "twitter.com" || strContains u "x.com" then "twitter"
      else if strContains u "linkedin.com" then "linkedin"
      else if strContains u "mail.google.com" || strContains u "mailto:" then "email"
      else ""
    else ""
  if byWeb ≠ "" then byWeb
  else
    let urlStr := match appUrl with | .simple u => u | .emailChain p _ _ => p
    if urlStr ≠ "" then
      let u := strToLower urlStr
      if strContains u "instagram" then "instagram"
      else if strContains u "facebook" || strContains u "fb://" then "facebook"
      else if strContains u "twitter" then "twitter"
      else if strContains u "linkedin" then "linkedin"
      else if strContains u "gmail" || strContains u "mailto" then "email"
      else ""
    else ""

/-! ## Orchestrator state -/

/-- The primary observation window before fallback
(source line 658: `isMobile() ? 1500 : 500`). -/
def fallbackDelay (env : Env) : Nat :=
  if isMobile env then 1500 else 500

/-- The blur-validation ("debounce") delay armed by `onBlur`
(source line 554: `300`). -/
def visibilityTimerDelayMs : Nat := 300

/-- Observable navigations and modal transitions of one run. -/
inductive Act where
  | attempt (url : String)
  | attemptFailed (url : String)
  | navigate (url : String)
  | showModal (platform url : String)
  | dismiss
  deriving Repr, DecidableEq

/-- The local state of one `openWithFallback` invocation: its captured
URLs, the detection flags, and one pending/deadline pair per timer.
`fallbackUrl = ""` and `detectedPlatform = ""` model `null`.
`emailSecPending` is the anonymous `setTimeout` of the email branch
(source line 687), which `cleanup` does not track and never cancels. -/
structure Session where
  primaryUrl : String
  fallbackUrl : String
  isEmailObj : Bool
  urlToUse : String
  finalWebUrl : String
  detectedPlatform : String
  initialHidden : Bool
  startTime : Nat
  appOpened : Bool
  detectionConfirmed : Bool
  fallbackPending : Bool
  fallbackDeadline : Nat
  visPending : Bool
  visDeadline : Nat
  safetyPending : Bool
  safetyDeadline : Nat
  emailSecPending : Bool
  emailSecDeadline : Nat
  intervalActive : Bool
  listenersArmed : Bool
  deriving Repr, DecidableEq

/-- The global `modalState` (source lines 22-27).  The
`safetyNetTimer` reference is not a separate field: it designates the
current session's safety-net timer whenever that timer is armed (the
two are set together and cleared together), so cancelling through the
reference is modelled as clearing that session's pending flag. -/
structure ModalSt where
  isOpen : Bool
  isClosed : Bool
  currentPlatform : String
  deriving Repr, DecidableEq

/-- Ambient document state: `document.hidden`, presence of the
`#app-download-modal` element, and its `active` class. -/
structure Dom where
  hidden : Bool
  modalExists : Bool
  modalActive : Bool
  deriving Repr, DecidableEq

/-- Global state for one Action (one click): wall clock, DOM, modal
state, the live session if any, the pending `modalState.isClosed`
reset timeouts (source line 274), and the trace of observable acts. -/
structure St where
  now : Nat
  dom : Dom
  modal : ModalSt
  session : Option Session
  resetTimers : List Nat
  acts : List Act
  deriving Repr, DecidableEq

/-- `cleanup` (source lines 473-498) restricted to the session: clears
the three tracked timers, stops the detection interval and removes the
document/window listeners. -/
def Session.cleanupTimers (s : Session) : Session :=
  { s with fallbackPending := false, visPending := false, safetyPending := false,
           intervalActive := false, listenersArmed := false }

/-- `checkIfAppOpened` (source lines 501-527): confirm exactly when the
page became hidden after start and within 2000 ms; on confirmation run
`cleanup`. -/
def Session.checkOpened (now : Nat) (hidden : Bool) (s : Session) : Session × Bool :=
  if s.detectionConfirmed then (s, true)
  else
    let wasHiddenAfterStart := hidden && !s.initialHidden
    let timeElapsed := now - s.startTime
    let quickHide := wasHiddenAfterStart && decide (timeElapsed < 2000)
    if wasHiddenAfterStart && quickHide then
      ({ s with appOpened := true, detectionConfirmed := true }.cleanupTimers, true)
    else (s, false)

/-- `onPageHide` (source lines 536-543): unconditional confirmation. -/
def Session.onPageHide (s : Session) : Session :=
  if !s.detectionConfirmed then
    { s with appOpened := true, detectionConfirmed := true }.cleanupTimers
  else s

/-- `onBlur` (source lines 545-555): arm the 300 ms validation timer.
A second blur while one is pending replaces the pending check; in the
source the superseded timeout also stays scheduled, but its callback
is exactly the `detectionConfirmed`-guarded `checkIfAppOpened` that the
replacing timer (and the interval) already performs, so keeping only
the latest deadline is observationally equivalent. -/
def Session.onBlur (now : Nat) (s : Session) : Session :=
  { s with visPending := true, visDeadline := now + visibilityTimerDelayMs }

/-- The blur-validation timeout callback (source lines 548-554). -/
def Session.fireVisTimer (now : Nat) (hidden : Bool) (s : Session) : Session :=
  let s1 := { s with visPending := false }
  if !s.detectionConfirmed then (s1.checkOpened now hidden).1 else s1

/-- One firing of the 100 ms detection interval (source lines 575-586):
re-check, and stop the interval after 2000 ms. -/
def Session.intervalTick (now : Nat) (hidden : Bool) (s : Session) : Session :=
  let res := s.checkOpened now hidden
  if res.2 then res.1
  else if decide (now - s.startTime > 2000) then { res.1 with intervalActive := false }
  else res.1

/-! ## Modal operations -/

/-- `if (modalState.safetyNetTimer) { clearTimeout(...); ... = null }`
(source lines 183-186 and 264-267): cancel the safety-net timer the
global reference designates — i.e. the current session's. -/
def clearSafetyRef (st : St) : St :=
  { st with session := st.session.map (fun s => { s with safetyPending := false }) }

/-- `webBtn.href` normalisation inside the modal (source lines 228-232). -/
def absolutizeWebUrl (webUrl : String) : String :=
  if !strStartsWith webUrl "http://" && !strStartsWith webUrl "https://" then
    "https://" ++ webUrl
  else webUrl

/-- `showAppDownloadModal` (source lines 141-313): the guard cascade
(already-active, user-closed, missing element, invalid URL, invalid
platform), then the state updates.  The emitted `Act.showModal` carries
the URL placed on the "Open in Browser" button.  Button text, icons,
focus management and the aria attributes are presentational and not
modelled. -/
def showAppDownloadModal (st : St) (platform webUrl : String) : St :=
  if st.dom.modalExists && st.dom.modalActive then st
  else if st.modal.isClosed then st
  else if !st.dom.modalExists then
    if webUrl ≠ "" && webUrl ≠ "#" then
      { st with acts := st.acts ++ [Act.navigate webUrl] }
    else st
  else if webUrl = "" || webUrl = "#" then st
  else if platform = "" then st
  else
    let st1 := { st with
      modal := { st.modal with isOpen := true, isClosed := false, currentPlatform := platform } }
    let st2 := clearSafetyRef st1
    { st2 with
      dom := { st2.dom with modalActive := true },
      acts := st2.acts ++ [Act.showModal platform (absolutizeWebUrl webUrl)] }

/-- `closeModal` (source lines 257-277): mark closed, cancel the
safety-net timer, hide the modal, and schedule the 500 ms reset of the
`isClosed` flag. -/
def closeModal (st : St) : St :=
  let st1 := { st with
    modal := { st.modal with isOpen := false, isClosed := true, currentPlatform := "" } }
  let st2 := clearSafetyRef st1
  { st2 with
    dom := { st2.dom with modalActive := false },
    acts := st2.acts ++ [Act.dismiss],
    resetTimers := st2.resetTimers ++ [st2.now + 500] }

/-- The `setTimeout` body of source lines 274-276:
`modalState.isClosed = false`. -/
def fireModalReset (st : St) : St :=
  match st.resetTimers with
  | [] => st
  | _ :: rest =>
    { st with resetTimers := rest, modal := { st.modal with isClosed := false } }

/-! ## Launch attempts and the orchestrator -/

/-- `attemptOpenApp` (source lines 593-649).  Both its arms perform one
best-effort navigation toward `url`; every navigation statement sits in
a `try/catch`, and when the `window.location.href` assignment and the
hidden-link `click()` method both throw, the error is logged and
swallowed.  `env.navThrows url` models that total failure; the partial
case (location assignment throws, the link method succeeds) is an
`Act.attempt` like the plain success. -/
def attemptOpenApp (env : Env) (st : St) (url : String) : St :=
  if env.navThrows url then { st with acts := st.acts ++ [Act.attemptFailed url] }
  else { st with acts := st.acts ++ [Act.attempt url] }

/-- `openWithFallback` (source lines 441-758) up to its first return:
destructure `appUrl`, snapshot `document.hidden` and the clock, arm the
listeners and the detection interval, attempt the primary URL, arm the
primary fallback timer, and on mobile-with-platform arm the safety-net
timer (storing it in `modalState.safetyNetTimer`).  The construction
sites always build the email object with a nonempty `primary`; in the
degenerate object-with-falsy-primary case (unreachable from `onClick`)
the source would pass the object itself to `attemptOpenApp`, modelled
as an empty primary URL. -/
def mkSession (env : Env) (now : Nat) (hidden : Bool) (appUrl : AppUrl)
    (webUrl platform : String) : Session :=
  let detectedPlatform := jsOr platform (getPlatformFromContext webUrl appUrl)
  let primaryUrl := match appUrl with
    | .simple u => u
    | .emailChain p _ _ => p
  let fallbackUrl := match appUrl with
    | .simple _ => ""
    | .emailChain p f _ => if p ≠ "" then f else ""
  let finalWebUrl := match appUrl with
    | .simple _ => webUrl
    | .emailChain p _ w => if p ≠ "" then jsOr w webUrl else webUrl
  let urlToUse := match appUrl with
    | .simple _ => webUrl
    | .emailChain _ _ w => if w ≠ "" then w else webUrl
  let isObj := match appUrl with
    | .simple _ => false
    | .emailChain _ _ _ => true
  let armSafety := isMobile env && detectedPlatform ≠ ""
  { primaryUrl := primaryUrl
    fallbackUrl := fallbackUrl
    isEmailObj := isObj
    urlToUse := urlToUse
    finalWebUrl := finalWebUrl
    detectedPlatform := detectedPlatform
    initialHidden := hidden
    startTime := now
    appOpened := false
    detectionConfirmed := false
    fallbackPending := true
    fallbackDeadline := now + fallbackDelay env
    visPending := false
    visDeadline := 0
    safetyPending := armSafety
    safetyDeadline := now + fallbackDelay env + 500
    emailSecPending := false
    emailSecDeadline := 0
    intervalActive := true
    listenersArmed := true }

def openWithFallback (env : Env) (st : St) (appUrl : AppUrl) (webUrl platform : String) : St :=
  let s := mkSession env st.now st.dom.hidden appUrl webUrl platform
  let st1 := attemptOpenApp env st s.primaryUrl
  { st1 with session := some s }

/-- The primary fallback timer callback (source lines 660-717):
`cleanup`, the final opened check, then either the email `mailto:`
chain (attempt the secondary URL and arm the inner 1500 ms timeout) or
the terminal modal/navigation. -/
def fireFallback (env : Env) (st : St) : St :=
  match st.session with
  | none => st
  | some s0 =>
    let s1 := s0.cleanupTimers
    let st1 := { st with session := some s1 }
    let timeElapsed := st.now - s0.startTime
    let isCurrentlyHidden := st.dom.hidden && !s0.initialHidden
    let wasHiddenQuickly := isCurrentlyHidden && decide (timeElapsed < 2000)
    let appActuallyOpened := s0.detectionConfirmed || s0.appOpened || wasHiddenQuickly
    if !appActuallyOpened then
      if s0.fallbackUrl ≠ "" && s0.isEmailObj && s0.primaryUrl ≠ "" &&
          strContains s0.primaryUrl "googlegmail://" then
        if !s0.appOpened && !s0.detectionConfirmed then
          let st2 := attemptOpenApp env st1 s0.fallbackUrl
          let s2 := { s1 with emailSecPending := true, emailSecDeadline := st.now + 1500 }
          { st2 with session := some s2 }
        else st1
      else
        if isMobile env && s0.detectedPlatform ≠ "" then
          showAppDownloadModal st1 s0.detectedPlatform (jsOr s0.urlToUse s0.finalWebUrl)
        else
          { st1 with acts := st1.acts ++ [Act.navigate (jsOr s0.urlToUse s0.finalWebUrl)] }
    else st1

/-- The inner email fallback timeout (source lines 687-700): if the
`mailto:` attempt did not hide the page either, show the email modal on
mobile or navigate to the web compose URL. -/
def fireEmailSecondary (env : Env) (st : St) : St :=
  match st.session with
  | none => st
  | some s0 =>
    let stA := { st with session := some { s0 with emailSecPending := false } }
    let mailtoTimeElapsed := st.now - s0.startTime
    let mailtoIsHidden := st.dom.hidden && !s0.initialHidden
    let mailtoOpened := mailtoIsHidden && decide (mailtoTimeElapsed < 3000)
    if !mailtoOpened && !s0.appOpened && !s0.detectionConfirmed then
      if s0.detectedPlatform ≠ "" && isMobile env then
        showAppDownloadModal stA "email" (jsOr s0.urlToUse s0.finalWebUrl)
      else
        { stA with acts := stA.acts ++ [Act.navigate s0.finalWebUrl] }
    else stA

/-- The safety-net timer callback (source lines 724-753): re-verify
every condition and re-show the modal if it never appeared. -/
def fireSafetyNet (st : St) : St :=
  match st.session with
  | none => st
  | some s0 =>
    let stA := { st with session := some { s0 with safetyPending := false } }
    let isModalVisible := st.dom.modalExists && st.dom.modalActive
    let timeElapsed := st.now - s0.startTime
    let isCurrentlyHidden := st.dom.hidden && !s0.initialHidden
    let shouldShowSafetyNet :=
      !isModalVisible && !st.modal.isClosed && !s0.detectionConfirmed &&
        !s0.appOpened && !isCurrentlyHidden && decide (timeElapsed ≥ 2000)
    if shouldShowSafetyNet then
      showAppDownloadModal stA s0.detectedPlatform (jsOr s0.urlToUse s0.finalWebUrl)
    else stA

/-- The `appUrl` construction of `onClick` (source lines 826-884): the
platform builders on Android/iOS, and the inline desktop variants (the
Gmail chain for email, direct schemes for social). -/
def resolveAppUrl (env : Env) (link : LinkData) : Option AppUrl :=
  let webUrl := link.href
  let platform := link.platform
  if platform = "email" then
    if isAndroid env then buildAndroidDeepLink platform webUrl link
    else if isIOS env then buildIOSDeepLink platform webUrl link
    else
      -- Desktop/other email (source lines 833-847): the same Gmail chain.
      if link.dataEmail ≠ "" then
        some (.emailChain (gmailAppUrl link.dataEmail link.dataName)
          (mailtoUrlOf link.dataEmail link.dataName)
          (gmailComposeUrl link.dataEmail link.dataName))
      else none
  else
    if isAndroid env then buildAndroidDeepLink platform webUrl link
    else if isIOS env then buildIOSDeepLink platform webUrl link
    else
      -- Desktop/other social (source lines 866-884): direct schemes.
      let username := getUsernameFromUrl webUrl
      if username ≠ "" then
        if platform = "instagram" then some (.simple ("instagram://user?username=" ++ encodeURIComponent username))
        else if platform = "twitter" then some (.simple ("twitter://user?screen_name=" ++ encodeURIComponent username))
        else if platform = "linkedin" then some (.simple ("linkedin://in/" ++ encodeURIComponent username))
        else if platform = "facebook" then some (.simple ("fb://profile/" ++ encodeURIComponent username))
        else none
      else none

/-- `onClick` (source lines 800-893) for a click whose target matched
`.social-link, .email-link`: validate the attributes, reset a stale
`isClosed`, build the platform deep link, and either start
`openWithFallback` or navigate directly to the web URL. -/
def onClick (env : Env) (st : St) (link : LinkData) : St :=
  if link.href = "" || link.platform = "" then st
  else
    -- `if (modalState.isClosed) { modalState.isClosed = false; modalState.isOpen = false }`
    let st1 := if st.modal.isClosed then
        { st with modal := { st.modal with isClosed := false, isOpen := false } }
      else st
    match resolveAppUrl env link with
    | some a => openWithFallback env st1 a link.href link.platform
    | none => { st1 with acts := st1.acts ++ [Act.navigate link.href] }

/-! ## Events, enabledness and runs -/

/-- The event alphabet: the click, environment changes, the DOM
lifecycle signals the listeners observe, each timer firing, the
detection-interval tick, and the user dismissing the modal. -/
inductive Ev where
  | click (link : LinkData)
  | timePasses (d : Nat)
  | setHidden (b : Bool)
  | visibilityChange
  | pagehide
  | blur
  | focus
  | intervalTick
  | fireFallbackTimer
  | fireVisibilityTimer
  | fireSafetyNetTimer
  | fireEmailSecondaryTimer
  | fireModalResetTimer
  | userCloseModal
  deriving Repr, DecidableEq

/-- Apply a session-level handler to the armed session, if any
(`document`/`window` listeners only run while armed). -/
def onArmedSession (st : St) (f : Session → Session) : St :=
  { st with session := st.session.map (fun s => if s.listenersArmed then f s else s) }

/-- Apply a session-level update gated on the detection interval being
active. -/
def onActiveInterval (st : St) (f : Session → Session) : St :=
  { st with session := st.session.map (fun s => if s.intervalActive then f s else s) }

/-- Apply a session-level update unconditionally. -/
def onSession (st : St) (f : Session → Session) : St :=
  { st with session := st.session.map f }

/-- The total transition function.  `focus` is the source's `onFocus`
(lines 557-565), which computes a condition and deliberately does
nothing with it. -/
def step (env : Env) (st : St) (e : Ev) : St :=
  match e with
  | .click link => onClick env st link
  | .timePasses d => { st with now := st.now + d }
  | .setHidden b => { st with dom := { st.dom with hidden := b } }
  | .visibilityChange => onArmedSession st (fun s => (s.checkOpened st.now st.dom.hidden).1)
  | .pagehide => onArmedSession st (fun s => s.onPageHide)
  | .blur => onArmedSession st (fun s => s.onBlur st.now)
  | .focus => onArmedSession st (fun s => s)
  | .intervalTick => onActiveInterval st (fun s => s.intervalTick st.now st.dom.hidden)
  | .fireFallbackTimer => fireFallback env st
  | .fireVisibilityTimer => onSession st (fun s => s.fireVisTimer st.now st.dom.hidden)
  | .fireSafetyNetTimer => fireSafetyNet st
  | .fireEmailSecondaryTimer => fireEmailSecondary env st
  | .fireModalResetTimer => fireModalReset st
  | .userCloseModal => closeModal st

/-- Is the event enabled at all?  A timer may fire only while pending
and only at or after its deadline (`setTimeout` never fires early); a
click is modelled only as the start of the Action (the claims below are
per-Action properties; concurrent Actions are treated in the dedicated
two-session model further down). -/
def enabledAny (st : St) (e : Ev) : Bool :=
  match e with
  | .click _ => st.session.isNone
  | .fireFallbackTimer =>
    match st.session with
    | some s => s.fallbackPending && decide (s.fallbackDeadline ≤ st.now)
    | none => false
  | .fireVisibilityTimer =>
    match st.session with
    | some s => s.visPending && decide (s.visDeadline ≤ st.now)
    | none => false
  | .fireSafetyNetTimer =>
    match st.session with
    | some s => s.safetyPending && decide (s.safetyDeadline ≤ st.now)
    | none => false
  | .fireEmailSecondaryTimer =>
    match st.session with
    | some s => s.emailSecPending && decide (s.emailSecDeadline ≤ st.now)
    | none => false
  | .fireModalResetTimer =>
    match st.resetTimers with
    | d :: _ => decide (d ≤ st.now)
    | [] => false
  | .intervalTick =>
    match st.session with
    | some s => s.intervalActive
    | none => false
  | .userCloseModal => st.dom.modalExists && st.dom.modalActive
  | _ => true

/-- Deadlines of every pending one-shot timeout. -/
def pendingDeadlines (st : St) : List Nat :=
  (match st.session with
   | some s =>
     (if s.fallbackPending then [s.fallbackDeadline] else []) ++
     (if s.visPending then [s.visDeadline] else []) ++
     (if s.safetyPending then [s.safetyDeadline] else []) ++
     (if s.emailSecPending then [s.emailSecDeadline] else [])
   | none => []) ++ st.resetTimers

/-- In-order delivery: a one-shot timeout may fire only when no pending
timeout has a strictly earlier deadline — the ordering the browser
event loop guarantees for expired timers. -/
def enabledOrd (st : St) (e : Ev) : Bool :=
  enabledAny st e &&
  match e with
  | .fireFallbackTimer =>
    match st.session with
    | some s => (pendingDeadlines st).all (fun x => s.fallbackDeadline ≤ x)
    | none => false
  | .fireVisibilityTimer =>
    match st.session with
    | some s => (pendingDeadlines st).all (fun x => s.visDeadline ≤ x)
    | none => false
  | .fireSafetyNetTimer =>
    match st.session with
    | some s => (pendingDeadlines st).all (fun x => s.safetyDeadline ≤ x)
    | none => false
  | .fireEmailSecondaryTimer =>
    match st.session with
    | some s => (pendingDeadlines st).all (fun x => s.emailSecDeadline ≤ x)
    | none => false
  | .fireModalResetTimer =>
    match st.resetTimers with
    | d :: _ => (pendingDeadlines st).all (fun x => d ≤ x)
    | [] => false
  | _ => true

/-- Run a list of events under an enabledness discipline; `none` when a
disabled event is requested. -/
def runWith (enab : St → Ev → Bool) (env : Env) : St → List Ev → Option St
  | st, [] => some st
  | st, e :: es => if enab st e then runWith enab env (step env st e) es else none

/-- Arbitrary interleavings (pending timers may fire out of deadline
order, as the claims' "out-of-order arrivals" allow). -/
def runAny (env : Env) (st : St) (evs : List Ev) : Option St :=
  runWith enabledAny env st evs

/-- In-order (event-loop faithful) interleavings. -/
def runOrd (env : Env) (st : St) (evs : List Ev) : Option St :=
  runWith enabledOrd env st evs

/-- The idle page state before the Action: clock zero, page visible,
no session, fresh modal state. -/
def initSt (modalExists : Bool) : St :=
  { now := 0
    dom := { hidden := false, modalExists := modalExists, modalActive := false }
    modal := { isOpen := false, isClosed := false, currentPlatform := "" }
    session := none
    resetTimers := []
    acts := [] }

/-- Terminal actions in the sense of the specification: a direct web
navigation or presenting the download-choice modal.  Candidate
attempts (`attempt`/`attemptFailed`) are not terminal. -/
def Act.isTerminal : Act → Bool
  | .navigate _ => true
  | .showModal _ _ => true
  | _ => false

def countTerminal (acts : List Act) : Nat :=
  acts.countP (fun a => a.isTerminal)

def Ev.isClick : Ev → Bool
  | .click _ => true
  | _ => false

def Ev.isPagehide : Ev → Bool
  | .pagehide => true
  | _ => false

def Ev.isSetHiddenTrue : Ev → Bool
  | .setHidden true => true
  | _ => false

/-! ## Two concurrent sessions

The single-`St` model above covers one Action.  `onClick` itself never
tears down a previous invocation's listeners or timers: each
`openWithFallback` call closes over its own `cleanup` and nothing
cancels an older session when a new click arrives.  `St2` runs two
sessions side by side exactly as the code does: each click creates a
session with `mkSession`, both sessions' listeners receive every
document/window event, and nothing ever touches the other session. -/

structure St2 where
  now : Nat
  hidden : Bool
  sessA : Option Session
  sessB : Option Session
  acts : List Act
  deriving Repr, DecidableEq

inductive Ev2 where
  | click2 (link : LinkData)
  | timePasses2 (d : Nat)
  | setHidden2 (b : Bool)
  | visibilityChange2
  deriving Repr, DecidableEq

/-- A click in the two-session world: resolve the deep link and start a
new `openWithFallback` session (the first click fills slot A, the
second slot B), never disturbing the session already armed — exactly
the source, where `onClick` performs no cancellation of an in-flight
session. -/
def St2.click2 (env : Env) (st : St2) (link : LinkData) : St2 :=
  if link.href = "" || link.platform = "" then st
  else
    match resolveAppUrl env link with
    | some a =>
      let s := mkSession env st.now st.hidden a link.href link.platform
      let acts := st.acts ++
        [if env.navThrows s.primaryUrl then Act.attemptFailed s.primaryUrl else Act.attempt s.primaryUrl]
      if st.sessA.isNone then { st with sessA := some s, acts := acts }
      else { st with sessB := some s, acts := acts }
    | none => { st with acts := st.acts ++ [Act.navigate link.href] }

/-- A `visibilitychange` dispatch runs every armed listener, in
registration order: session A's handler, then session B's. -/
def St2.visibility2 (st : St2) : St2 :=
  let upd := fun (o : Option Session) => o.map (fun s =>
    if s.listenersArmed then (s.checkOpened st.now st.hidden).1 else s)
  { st with sessA := upd st.sessA, sessB := upd st.sessB }

def step2 (env : Env) (st : St2) : Ev2 → St2
  | .click2 l => st.click2 env l
  | .timePasses2 d => { st with now := st.now + d }
  | .setHidden2 b => { st with hidden := b }
  | .visibilityChange2 => st.visibility2

def run2 (env : Env) : St2 → List Ev2 → St2
  | st, [] => st
  | st, e :: es => run2 env (step2 env st e) es

def initSt2 : St2 :=
  { now := 0, hidden := false, sessA := none, sessB := none, acts := [] }

/-! ## Concrete fixtures -/

/-- An Android phone environment (mobile user agent, coarse pointer,
touch, narrow viewport); navigation never throws. -/
def mobileEnv : Env :=
  { ua := "Mozilla/5.0 (Linux; Android 13; Pixel 7) AppleWebKit/537.36 Mobile Safari/537.36"
    coarsePointer := true, noHover := true, hasTouch := true, innerWidth := 412
    msStream := false, navThrows := fun _ => false }

/-- A Windows desktop environment. -/
def desktopEnv : Env :=
  { ua := "Mozilla/5.0 (Windows NT 10.0; Win64; x64) AppleWebKit/537.36 Chrome/120.0 Safari/537.36"
    coarsePointer := false, noHover := false, hasTouch := false, innerWidth := 1920
    msStream := false, navThrows := fun _ => false }

/-- An iPhone environment. -/
def iosEnv : Env :=
  { ua := "Mozilla/5.0 (iPhone; CPU iPhone OS 17_0 like Mac OS X) AppleWebKit/605.1.15 Mobile/15E148 Safari/604.1"
    coarsePointer := true, noHover := true, hasTouch := true, innerWidth := 390
    msStream := false, navThrows := fun _ => false }

/-- An environment matching neither the mobile nor the desktop
user-agent patterns, with no coarse-pointer/touch signals. -/
def neitherEnv : Env :=
  { ua := "SmartFridge/1.0"
    coarsePointer := false, noHover := false, hasTouch := false, innerWidth := 1024
    msStream := false, navThrows := fun _ => false }

/-- The iPhone environment in which assigning the Instagram scheme URI
to `location.href` (and the hidden-link fallback method) throws. -/
def throwEnv : Env :=
  { iosEnv with navThrows := fun u => u = "instagram://user?username=alice" }

def igLink : LinkData :=
  { href := "https://instagram.com/alice", platform := "instagram", dataEmail := "", dataName := "" }

def igLinkNoUser : LinkData :=
  { href := "https://instagram.com/", platform := "instagram", dataEmail := "", dataName := "" }

def fbLink : LinkData :=
  { href := "https://facebook.com/bob", platform := "facebook", dataEmail := "", dataName := "" }

def igUri : String := "instagram://user?username=alice"

def igWeb : String := "https://instagram.com/alice"

/-! ## Invariant definitions and witness-run fixtures -/

def attemptAct (env : Env) (url : String) : Act :=
  if env.navThrows url then Act.attemptFailed url else Act.attempt url

/-- Invariant for claim C5: the document never becomes hidden, so the
detector never confirms. -/
def InvC5 (st : St) : Prop :=
  st.dom.hidden = false ∧
  ∀ s, st.session = some s → s.appOpened = false ∧ s.detectionConfirmed = false

/-- Invariant for claim C1 (amended): terminal count stays at most one;
while the primary window or the email-secondary timer is pending no
terminal act has fired; the safety-net timer is pending only while the
earlier-deadline primary timer is. -/
def InvC1 (st : St) : Prop :=
  countTerminal st.acts ≤ 1 ∧
  (st.session = none → st.dom.modalActive = false ∧ st.resetTimers = []) ∧
  ∀ s, st.session = some s →
    (s.fallbackPending = true → countTerminal st.acts = 0 ∧ s.emailSecPending = false) ∧
    (s.emailSecPending = true →
      countTerminal st.acts = 0 ∧ s.fallbackPending = false ∧ s.safetyPending = false) ∧
    (s.safetyPending = true → s.fallbackPending = true ∧ s.fallbackDeadline < s.safetyDeadline)

/-- "The web candidate `w` has been reached": the trace contains a
direct navigation to `w` or a modal whose browser option carries `w`. -/
def reachedIn (acts : List Act) (w : String) : Prop :=
  Act.navigate w ∈ acts ∨ ∃ q, Act.showModal q w ∈ acts

/-- Invariant for claim C2: the page stays visible, the detector never
confirms, the session's two web-URL fields agree on an `https://`
target, a visible or dismissed modal means the target was already
reached, and once the primary window has fired either the target was
reached or the email chain's inner timer is still due. -/
def InvC2 (l : LinkData) (st : St) : Prop :=
  st.dom.hidden = false ∧
  (st.session = none →
    st.dom.modalActive = false ∧ st.resetTimers = [] ∧ reachedIn st.acts l.href) ∧
  ∀ s, st.session = some s →
    s.appOpened = false ∧ s.detectionConfirmed = false ∧
    s.urlToUse = s.finalWebUrl ∧ strStartsWith s.urlToUse "https://" = true ∧
    ((st.dom.modalActive = true ∨ st.modal.isClosed = true) → reachedIn st.acts s.urlToUse) ∧
    (s.fallbackPending = false → reachedIn st.acts s.urlToUse ∨ s.emailSecPending = true) ∧
    (s.fallbackPending = false ∨ s.emailSecPending = false)

/-- Events for the C2 witness run: a click on the Instagram link from a
phone, the 1500 ms mobile window passing, and the primary fallback
timer firing. -/
def c2Rest : List Ev := [Ev.timePasses 1500, Ev.fireFallbackTimer]

/-- Final state of the C2 witness run. -/
def c2FinalSt : St :=
  (runAny mobileEnv (initSt true) (Ev.click igLink :: c2Rest)).getD (initSt true)

/-- Events after the click for the C1 witness run. -/
def c1Rest : List Ev := [Ev.timePasses 1500, Ev.fireFallbackTimer]

/-- Final state of the C1 witness run. -/
def c1FinalSt : St :=
  (runOrd mobileEnv (initSt true) (Ev.click igLink :: c1Rest)).getD (initSt true)

/-- Events for the C5 witness run: click from an iPhone, blur, focus
back 50 ms later, the 300 ms blur-validation timer, then the 1500 ms
primary fallback timer. -/
def c5Evs : List Ev :=
  [Ev.click igLink, Ev.blur, Ev.timePasses 50, Ev.focus, Ev.timePasses 250,
   Ev.fireVisibilityTimer, Ev.timePasses 1200, Ev.fireFallbackTimer]

/-- Final state of the C5 witness run. -/
def c5FinalSt : St :=
  (runAny iosEnv (initSt true) c5Evs).getD (initSt true)

/-! ## Supporting lemmas -/

theorem countTerminal_append (l1 l2 : List Act) :
    countTerminal (l1 ++ l2) = countTerminal l1 + countTerminal l2 := by
  simp [countTerminal, List.countP_append]

theorem countTerminal_snoc (l : List Act) (a : Act) :
    countTerminal (l ++ [a]) = countTerminal l + (if a.isTerminal then 1 else 0) := by
  simp [countTerminal, List.countP_append, List.countP_cons]

theorem strToList_append (a b : String) : (a ++ b).toList = a.toList ++ b.toList := by
  simp [String.toList, String.data_append]

theorem charsStartWith_append (p l1 l2 : List Char) (h : charsStartWith p l1 = true) :
    charsStartWith p (l1 ++ l2) = true := by
  induction p generalizing l1 with
  | nil => simp [charsStartWith]
  | cons x xs ih =>
    cases l1 with
    | nil => simp [charsStartWith] at h
    | cons c cs =>
      simp only [List.cons_append, charsStartWith, Bool.and_eq_true] at h ⊢
      exact ⟨h.1, ih cs h.2⟩

theorem attemptOpenApp_eq (env : Env) (st : St) (url : String) :
    attemptOpenApp env st url = { st with acts := st.acts ++ [attemptAct env url] } := by
  unfold attemptOpenApp attemptAct
  split <;> rfl

theorem attemptAct_not_terminal (env : Env) (url : String) :
    (attemptAct env url).isTerminal = false := by
  unfold attemptAct
  split <;> rfl

theorem onClick_cases (env : Env) (st : St) (l : LinkData) :
    onClick env st l = st ∨
    (∃ st1, (st1 = st ∨ st1 = { st with modal := { st.modal with isClosed := false, isOpen := false } }) ∧
      (onClick env st l = { st1 with acts := st1.acts ++ [Act.navigate l.href] } ∨
       ∃ a, resolveAppUrl env l = some a ∧
         onClick env st l =
           { st1 with
             acts := st1.acts ++ [attemptAct env (mkSession env st.now st.dom.hidden a l.href l.platform).primaryUrl],
             session := some (mkSession env st.now st.dom.hidden a l.href l.platform) }) ) := by
  unfold onClick
  split
  · exact Or.inl rfl
  · refine Or.inr ?_
    rcases hres : resolveAppUrl env l with _ | a
    · simp only []
      split
      · exact ⟨_, Or.inr rfl, Or.inl rfl⟩
      · exact ⟨_, Or.inl rfl, Or.inl rfl⟩
    · unfold openWithFallback
      simp only [attemptOpenApp_eq]
      split
      · exact ⟨_, Or.inr rfl, Or.inr ⟨a, rfl, rfl⟩⟩
      · exact ⟨_, Or.inl rfl, Or.inr ⟨a, rfl, rfl⟩⟩

/-- Shape of `showAppDownloadModal`: suppressed, the missing-modal
direct navigation, or the successful show. -/
theorem showAppDownloadModal_cases (st : St) (p w : String) :
    showAppDownloadModal st p w = st ∨
    showAppDownloadModal st p w = { st with acts := st.acts ++ [Act.navigate w] } ∨
    showAppDownloadModal st p w =
      { st with
        modal := { st.modal with isOpen := true, isClosed := false, currentPlatform := p },
        session := st.session.map (fun s => { s with safetyPending := false }),
        dom := { st.dom with modalActive := true },
        acts := st.acts ++ [Act.showModal p (absolutizeWebUrl w)] } := by
  unfold showAppDownloadModal clearSafetyRef
  repeat' split
  all_goals first
    | exact Or.inl rfl
    | exact Or.inr (Or.inl rfl)
    | exact Or.inr (Or.inr rfl)

/-- When the modal is not showing, was not user-closed, and the inputs
are valid, `showAppDownloadModal` emits its terminal act. -/
theorem showAppDownloadModal_emits (st : St) (p w : String)
    (hact : st.dom.modalActive = false) (hcl : st.modal.isClosed = false)
    (hw1 : w ≠ "") (hw2 : w ≠ "#") (hp : p ≠ "") :
    showAppDownloadModal st p w = { st with acts := st.acts ++ [Act.navigate w] } ∨
    showAppDownloadModal st p w =
      { st with
        modal := { st.modal with isOpen := true, isClosed := false, currentPlatform := p },
        session := st.session.map (fun s => { s with safetyPending := false }),
        dom := { st.dom with modalActive := true },
        acts := st.acts ++ [Act.showModal p (absolutizeWebUrl w)] } := by
  unfold showAppDownloadModal clearSafetyRef
  repeat' split
  all_goals first
    | exact Or.inl rfl
    | exact Or.inr rfl
    | simp_all

/-- `checkOpened` returns the session unchanged or confirmed-and-cleaned. -/
theorem Session.checkOpened_spec (now : Nat) (hidden : Bool) (s : Session) :
    (s.checkOpened now hidden).1 = s ∨
    (s.checkOpened now hidden).1 =
      ({ s with appOpened := true, detectionConfirmed := true }).cleanupTimers := by
  unfold Session.checkOpened
  simp only []
  repeat' split
  all_goals first
    | exact Or.inl rfl
    | exact Or.inr rfl

/-- `checkOpened` cannot confirm while the document is visible. -/
theorem Session.checkOpened_not_hidden (now : Nat) (s : Session)
    (h : s.detectionConfirmed = false) :
    s.checkOpened now false = (s, false) := by
  unfold Session.checkOpened
  simp [h]

theorem Session.onPageHide_spec (s : Session) :
    s.onPageHide = s ∨
    s.onPageHide = ({ s with appOpened := true, detectionConfirmed := true }).cleanupTimers := by
  unfold Session.onPageHide
  split
  · exact Or.inr rfl
  · exact Or.inl rfl

theorem Session.fireVisTimer_spec (now : Nat) (hidden : Bool) (s : Session) :
    s.fireVisTimer now hidden = { s with visPending := false } ∨
    s.fireVisTimer now hidden = ({ s with appOpened := true, detectionConfirmed := true }).cleanupTimers := by
  unfold Session.fireVisTimer
  simp only []
  split
  · rcases Session.checkOpened_spec now hidden { s with visPending := false } with h | h <;> rw [h]
    · exact Or.inl rfl
    · right
      simp [Session.cleanupTimers]
  · exact Or.inl rfl

theorem Session.intervalTick_spec (now : Nat) (hidden : Bool) (s : Session) :
    s.intervalTick now hidden = s ∨
    s.intervalTick now hidden = { s with intervalActive := false } ∨
    s.intervalTick now hidden = ({ s with appOpened := true, detectionConfirmed := true }).cleanupTimers := by
  unfold Session.intervalTick
  simp only []
  rcases Session.checkOpened_spec now hidden s with h | h <;> rw [h]
  · repeat' split
    all_goals first
      | exact Or.inl rfl
      | exact Or.inr (Or.inl rfl)
  · repeat' split
    all_goals exact Or.inr (Or.inr rfl)

theorem closeModal_eq (st : St) :
    closeModal st =
      { st with
        modal := { isOpen := false, isClosed := true, currentPlatform := "" },
        session := st.session.map (fun s => { s with safetyPending := false }),
        dom := { st.dom with modalActive := false },
        acts := st.acts ++ [Act.dismiss],
        resetTimers := st.resetTimers ++ [st.now + 500] } := rfl

theorem invC5_mapSession (st : St) (hInv : InvC5 st) (f : Session → Session)
    (hf : ∀ s, s.appOpened = false → s.detectionConfirmed = false →
      (f s).appOpened = false ∧ (f s).detectionConfirmed = false) :
    InvC5 { st with session := st.session.map f } := by
  obtain ⟨hhid, hsess⟩ := hInv
  refine ⟨hhid, ?_⟩
  intro s2 hs2
  rcases hs : st.session with _ | s <;> rw [hs] at hs2
  · cases hs2
  · simp only [Option.map_some', Option.some.injEq] at hs2
    obtain ⟨ho, hc⟩ := hsess s hs
    rw [← hs2]
    exact hf s ho hc

theorem invC5_showModal (st : St) (p w : String) (hInv : InvC5 st) :
    InvC5 (showAppDownloadModal st p w) := by
  rcases showAppDownloadModal_cases st p w with h | h | h <;> rw [h]
  · exact hInv
  · exact ⟨hInv.1, hInv.2⟩
  · exact invC5_mapSession { st with
        modal := { st.modal with isOpen := true, isClosed := false, currentPlatform := p } }
      ⟨hInv.1, hInv.2⟩ _ (fun s ho hc => ⟨ho, hc⟩)

theorem invC5_step (env : Env) (st : St) (e : Ev)
    (hInv : InvC5 st)
    (hph : e.isPagehide = false) (hsh : e.isSetHiddenTrue = false) :
    InvC5 (step env st e) := by
  obtain ⟨hhid, hsess⟩ := hInv
  cases e with
  | click l =>
    rcases onClick_cases env st l with h | ⟨st1, hst1, h | ⟨a, hres, h⟩⟩
    · simp only [step, h]
      exact ⟨hhid, hsess⟩
    · rcases hst1 with rfl | rfl <;> simp only [step, h] <;> exact ⟨hhid, hsess⟩
    · rcases hst1 with rfl | rfl <;> simp only [step, h] <;>
        exact ⟨hhid, by intro s hs; cases hs; exact ⟨rfl, rfl⟩⟩
  | timePasses d => exact ⟨hhid, hsess⟩
  | setHidden b =>
    cases b
    · exact ⟨rfl, hsess⟩
    · simp [Ev.isSetHiddenTrue] at hsh
  | visibilityChange =>
    refine invC5_mapSession st ⟨hhid, hsess⟩ _ ?_
    intro s ho hc
    dsimp only
    split
    · rw [hhid, Session.checkOpened_not_hidden _ _ hc]
      exact ⟨ho, hc⟩
    · exact ⟨ho, hc⟩
  | pagehide => simp [Ev.isPagehide] at hph
  | blur =>
    refine invC5_mapSession st ⟨hhid, hsess⟩ _ ?_
    intro s ho hc
    dsimp only
    split
    · exact ⟨ho, hc⟩
    · exact ⟨ho, hc⟩
  | focus =>
    refine invC5_mapSession st ⟨hhid, hsess⟩ _ ?_
    intro s ho hc
    dsimp only
    split <;> exact ⟨ho, hc⟩
  | intervalTick =>
    refine invC5_mapSession st ⟨hhid, hsess⟩ _ ?_
    intro s ho hc
    dsimp only
    split
    · unfold Session.intervalTick
      rw [hhid, Session.checkOpened_not_hidden _ _ hc]
      simp only []
      repeat' split
      all_goals exact ⟨ho, hc⟩
    · exact ⟨ho, hc⟩
  | fireVisibilityTimer =>
    refine invC5_mapSession st ⟨hhid, hsess⟩ _ ?_
    intro s ho hc
    dsimp only
    unfold Session.fireVisTimer
    rw [hhid]
    simp only []
    split
    · rw [Session.checkOpened_not_hidden _ _
        (show Session.detectionConfirmed { s with visPending := false } = false from hc)]
      exact ⟨ho, hc⟩
    · exact ⟨ho, hc⟩
  | fireFallbackTimer =>
    simp only [step]
    unfold fireFallback
    rcases hs : st.session with _ | s0
    · exact ⟨hhid, hsess⟩
    · obtain ⟨ho, hc⟩ := hsess s0 hs
      simp only []
      repeat' split
      all_goals first
        | exact invC5_showModal _ _ _ ⟨hhid, by intro s2 hs2; cases hs2; exact ⟨ho, hc⟩⟩
        | exact ⟨hhid, by intro s2 hs2; cases hs2; exact ⟨ho, hc⟩⟩
        | (simp only [attemptOpenApp_eq]
           refine ⟨hhid, ?_⟩
           intro s2 hs2
           simp only [Option.some.injEq] at hs2
           rw [← hs2]
           exact ⟨ho, hc⟩)
  | fireSafetyNetTimer =>
    simp only [step]
    unfold fireSafetyNet
    rcases hs : st.session with _ | s0
    · exact ⟨hhid, hsess⟩
    · obtain ⟨ho, hc⟩ := hsess s0 hs
      simp only []
      split
      · exact invC5_showModal _ _ _ ⟨hhid, by intro s2 hs2; cases hs2; exact ⟨ho, hc⟩⟩
      · exact ⟨hhid, by intro s2 hs2; cases hs2; exact ⟨ho, hc⟩⟩
  | fireEmailSecondaryTimer =>
    simp only [step]
    unfold fireEmailSecondary
    rcases hs : st.session with _ | s0
    · exact ⟨hhid, hsess⟩
    · obtain ⟨ho, hc⟩ := hsess s0 hs
      simp only []
      repeat' split
      all_goals first
        | exact invC5_showModal _ _ _ ⟨hhid, by intro s2 hs2; cases hs2; exact ⟨ho, hc⟩⟩
        | exact ⟨hhid, by intro s2 hs2; cases hs2; exact ⟨ho, hc⟩⟩
  | fireModalResetTimer =>
    simp only [step]
    unfold fireModalReset
    split
    · exact ⟨hhid, hsess⟩
    · exact ⟨hhid, hsess⟩
  | userCloseModal =>
    simp only [step, closeModal_eq]
    exact invC5_mapSession { st with
        modal := { isOpen := false, isClosed := true, currentPlatform := "" } }
      ⟨hhid, hsess⟩ _ (fun s ho hc => ⟨ho, hc⟩)

theorem invC5_run (env : Env) (evs : List Ev) (st stF : St)
    (hInv : InvC5 st)
    (hevs : ∀ e ∈ evs, e.isPagehide = false ∧ e.isSetHiddenTrue = false)
    (hrun : runAny env st evs = some stF) : InvC5 stF := by
  induction evs generalizing st with
  | nil =>
    unfold runAny runWith at hrun
    cases hrun
    exact hInv
  | cons e es ih =>
    unfold runAny runWith at hrun
    split at hrun
    · exact ih (step env st e)
        (invC5_step env st e hInv (hevs e (by simp)).1 (hevs e (by simp)).2)
        (fun e2 he2 => hevs e2 (by simp [he2]))
        hrun
    · cases hrun

/-- Session updates that leave the one-shot timer bookkeeping untouched,
clean it up, or only cancel the safety net preserve the per-session
conjuncts. -/
theorem invC1_mapSession (st : St) (hInv : InvC1 st) (f : Session → Session)
    (hf : ∀ s,
      ((f s).fallbackPending = s.fallbackPending ∧ (f s).emailSecPending = s.emailSecPending ∧
       (f s).safetyPending = s.safetyPending ∧ (f s).fallbackDeadline = s.fallbackDeadline ∧
       (f s).safetyDeadline = s.safetyDeadline) ∨
      ((f s).fallbackPending = false ∧ (f s).emailSecPending = s.emailSecPending ∧
       (f s).safetyPending = false) ∨
      ((f s).fallbackPending = s.fallbackPending ∧ (f s).emailSecPending = s.emailSecPending ∧
       (f s).safetyPending = false ∧ (f s).fallbackDeadline = s.fallbackDeadline)) :
    InvC1 { st with session := st.session.map f } := by
  obtain ⟨hcnt, hnone, hsome⟩ := hInv
  refine ⟨hcnt, ?_, ?_⟩
  · intro h
    rcases hs : st.session with _ | s
    · exact hnone hs
    · rw [hs] at h
      cases h
  · intro s2 hs2
    rcases hs : st.session with _ | s <;> rw [hs] at hs2
    · cases hs2
    · simp only [Option.map_some', Option.some.injEq] at hs2
      obtain ⟨c1, c2, c3⟩ := hsome s hs
      rcases hf s with ⟨f1, f2, f3, f4, f5⟩ | ⟨f1, f2, f3⟩ | ⟨f1, f2, f3, f4⟩ <;> rw [← hs2]
      · refine ⟨?_, ?_, ?_⟩
        · rw [f1, f2]
          exact c1
        · rw [f2, f1, f3]
          exact c2
        · rw [f3, f1, f4, f5]
          exact c3
      · refine ⟨?_, ?_, ?_⟩
        · rw [f1]
          intro h
          cases h
        · rw [f2, f1, f3]
          intro h
          exact ⟨(c2 h).1, rfl, rfl⟩
        · rw [f3]
          intro h
          cases h
      · refine ⟨?_, ?_, ?_⟩
        · rw [f1, f2]
          exact c1
        · rw [f2, f1, f3]
          intro h
          exact ⟨(c2 h).1, (c2 h).2.1, rfl⟩
        · rw [f3]
          intro h
          cases h

/-- A state whose session has no pending one-shot orchestrator timers
satisfies the per-session conjuncts outright. -/
theorem invC1_done (stX : St) (s2 : Session)
    (hses : stX.session = some s2)
    (hcnt : countTerminal stX.acts ≤ 1)
    (hf : s2.fallbackPending = false) (he : s2.emailSecPending = false)
    (hsf : s2.safetyPending = false) :
    InvC1 stX := by
  refine ⟨hcnt, ?_, ?_⟩
  · intro h
    rw [hses] at h
    cases h
  · intro s3 hs3
    rw [hses] at hs3
    simp only [Option.some.injEq] at hs3
    rw [← hs3]
    refine ⟨?_, ?_, ?_⟩
    · rw [hf]
      intro h
      cases h
    · rw [he]
      intro h
      cases h
    · rw [hsf]
      intro h
      cases h

theorem fallbackDeadline_mem_pending (st : St) (s : Session)
    (hs : st.session = some s) (hp : s.fallbackPending = true) :
    s.fallbackDeadline ∈ pendingDeadlines st := by
  unfold pendingDeadlines
  rw [hs]
  simp [hp]

theorem invC1_step (env : Env) (st : St) (e : Ev)
    (hInv : InvC1 st) (hen : enabledOrd st e = true) (hnc : e.isClick = false) :
    InvC1 (step env st e) := by
  obtain ⟨hcnt, hnone, hsome⟩ := hInv
  cases e with
  | click l => simp [Ev.isClick] at hnc
  | timePasses d => exact ⟨hcnt, hnone, hsome⟩
  | setHidden b => exact ⟨hcnt, hnone, hsome⟩
  | visibilityChange =>
    refine invC1_mapSession st ⟨hcnt, hnone, hsome⟩ _ ?_
    intro s
    dsimp only
    split
    · rcases Session.checkOpened_spec st.now st.dom.hidden s with h | h <;> rw [h]
      · exact Or.inl ⟨rfl, rfl, rfl, rfl, rfl⟩
      · exact Or.inr (Or.inl ⟨rfl, rfl, rfl⟩)
    · exact Or.inl ⟨rfl, rfl, rfl, rfl, rfl⟩
  | pagehide =>
    refine invC1_mapSession st ⟨hcnt, hnone, hsome⟩ _ ?_
    intro s
    dsimp only
    split
    · rcases Session.onPageHide_spec s with h | h <;> rw [h]
      · exact Or.inl ⟨rfl, rfl, rfl, rfl, rfl⟩
      · exact Or.inr (Or.inl ⟨rfl, rfl, rfl⟩)
    · exact Or.inl ⟨rfl, rfl, rfl, rfl, rfl⟩
  | blur =>
    refine invC1_mapSession st ⟨hcnt, hnone, hsome⟩ _ ?_
    intro s
    dsimp only
    split
    · exact Or.inl ⟨rfl, rfl, rfl, rfl, rfl⟩
    · exact Or.inl ⟨rfl, rfl, rfl, rfl, rfl⟩
  | focus =>
    refine invC1_mapSession st ⟨hcnt, hnone, hsome⟩ _ ?_
    intro s
    dsimp only
    split <;> exact Or.inl ⟨rfl, rfl, rfl, rfl, rfl⟩
  | intervalTick =>
    refine invC1_mapSession st ⟨hcnt, hnone, hsome⟩ _ ?_
    intro s
    dsimp only
    split
    · rcases Session.intervalTick_spec st.now st.dom.hidden s with h | h | h <;> rw [h]
      · exact Or.inl ⟨rfl, rfl, rfl, rfl, rfl⟩
      · exact Or.inl ⟨rfl, rfl, rfl, rfl, rfl⟩
      · exact Or.inr (Or.inl ⟨rfl, rfl, rfl⟩)
    · exact Or.inl ⟨rfl, rfl, rfl, rfl, rfl⟩
  | fireVisibilityTimer =>
    refine invC1_mapSession st ⟨hcnt, hnone, hsome⟩ _ ?_
    intro s
    dsimp only
    rcases Session.fireVisTimer_spec st.now st.dom.hidden s with h | h <;> rw [h]
    · exact Or.inl ⟨rfl, rfl, rfl, rfl, rfl⟩
    · exact Or.inr (Or.inl ⟨rfl, rfl, rfl⟩)
  | fireModalResetTimer =>
    simp only [step]
    unfold fireModalReset
    split
    · exact ⟨hcnt, hnone, hsome⟩
    · refine ⟨hcnt, ?_, hsome⟩
      intro h
      rcases hs : st.session with _ | s
      · obtain ⟨-, hrt⟩ := hnone hs
        simp only [enabledOrd, enabledAny, hrt] at hen
        cases hen
      · rw [hs] at h
        cases h
  | userCloseModal =>
    simp only [step, closeModal_eq]
    have hact : st.dom.modalActive = true := by
      simp only [enabledOrd, enabledAny, Bool.and_eq_true] at hen
      exact hen.1.2
    have hbase : InvC1 { st with
        modal := { isOpen := false, isClosed := true, currentPlatform := "" },
        dom := { st.dom with modalActive := false },
        acts := st.acts ++ [Act.dismiss],
        resetTimers := st.resetTimers ++ [st.now + 500] } := by
      refine ⟨?_, ?_, ?_⟩
      · simpa [countTerminal_snoc, Act.isTerminal] using hcnt
      · intro h
        rcases hs : st.session with _ | s
        · obtain ⟨ha, -⟩ := hnone hs
          rw [ha] at hact
          cases hact
        · rw [hs] at h
          cases h
      · intro s2 hs2
        obtain ⟨c1, c2, c3⟩ := hsome s2 hs2
        refine ⟨?_, ?_, c3⟩
        · intro h
          obtain ⟨hc0, he⟩ := c1 h
          exact ⟨by simpa [countTerminal_snoc, Act.isTerminal] using hc0, he⟩
        · intro h
          obtain ⟨hc0, hf, hsf⟩ := c2 h
          exact ⟨by simpa [countTerminal_snoc, Act.isTerminal] using hc0, hf, hsf⟩
    exact invC1_mapSession _ hbase _ (fun s => Or.inr (Or.inr ⟨rfl, rfl, rfl, rfl⟩))
  | fireSafetyNetTimer =>
    exfalso
    simp only [enabledOrd, enabledAny] at hen
    rcases hs : st.session with _ | s <;> rw [hs] at hen
    · simp at hen
    · simp only [Bool.and_eq_true, decide_eq_true_eq, List.all_eq_true] at hen
      obtain ⟨⟨hsp, -⟩, hall⟩ := hen
      obtain ⟨-, -, c3⟩ := hsome s hs
      obtain ⟨hfp, hlt⟩ := c3 hsp
      have := hall s.fallbackDeadline (fallbackDeadline_mem_pending st s hs hfp)
      omega
  | fireEmailSecondaryTimer =>
    have hsp : ∃ s, st.session = some s ∧ s.emailSecPending = true := by
      simp only [enabledOrd, enabledAny] at hen
      rcases hs : st.session with _ | s <;> rw [hs] at hen
      · simp at hen
      · simp only [Bool.and_eq_true] at hen
        exact ⟨s, rfl, hen.1.1⟩
    obtain ⟨s0, hs, hesp⟩ := hsp
    obtain ⟨-, c2, -⟩ := hsome s0 hs
    obtain ⟨hc0, hfp, hsf⟩ := c2 hesp
    simp only [step]
    unfold fireEmailSecondary
    rw [hs]
    simp only []
    have hbase : InvC1 { st with session := some { s0 with emailSecPending := false } } :=
      invC1_done _ _ rfl (le_of_eq_of_le hc0 (by omega)) hfp rfl hsf
    split
    · split
      · rcases showAppDownloadModal_cases
            { st with session := some { s0 with emailSecPending := false } } "email"
            (jsOr s0.urlToUse s0.finalWebUrl) with h | h | h <;> rw [h]
        · exact hbase
        · exact invC1_done _ _ rfl
            (by simp [countTerminal_snoc, Act.isTerminal, hc0]) hfp rfl hsf
        · exact invC1_done _ _ rfl
            (by simp [countTerminal_snoc, Act.isTerminal, hc0]) hfp rfl rfl
      · exact invC1_done _ _ rfl
          (by simp [countTerminal_snoc, Act.isTerminal, hc0]) hfp rfl hsf
    · exact hbase
  | fireFallbackTimer =>
    have hsp : ∃ s, st.session = some s ∧ s.fallbackPending = true := by
      simp only [enabledOrd, enabledAny] at hen
      rcases hs : st.session with _ | s <;> rw [hs] at hen
      · simp at hen
      · simp only [Bool.and_eq_true] at hen
        exact ⟨s, rfl, hen.1.1⟩
    obtain ⟨s0, hs, hfpend⟩ := hsp
    obtain ⟨c1, -, -⟩ := hsome s0 hs
    obtain ⟨hc0, hesp⟩ := c1 hfpend
    simp only [step]
    unfold fireFallback
    rw [hs]
    simp only []
    have hclean : InvC1 { st with session := some s0.cleanupTimers } :=
      invC1_done _ _ rfl (le_of_eq_of_le hc0 (by omega)) rfl
        (by simp [Session.cleanupTimers, hesp]) rfl
    split
    · split
      · split
        · simp only [attemptOpenApp_eq]
          refine ⟨by simp [countTerminal_snoc, attemptAct_not_terminal, hc0], ?_, ?_⟩
          · intro h
            cases h
          · intro s2 hs2
            simp only [Option.some.injEq] at hs2
            rw [← hs2]
            refine ⟨?_, ?_, ?_⟩
            · intro h
              cases h
            · intro h
              exact ⟨by simp [countTerminal_snoc, attemptAct_not_terminal, hc0], rfl, rfl⟩
            · intro h
              cases h
        · exact hclean
      · split
        · rcases showAppDownloadModal_cases
              { st with session := some s0.cleanupTimers } s0.detectedPlatform
              (jsOr s0.urlToUse s0.finalWebUrl) with h | h | h <;> rw [h]
          · exact hclean
          · exact invC1_done _ _ rfl
              (by simp [countTerminal_snoc, Act.isTerminal, hc0]) rfl
              (by simp [Session.cleanupTimers, hesp]) rfl
          · exact invC1_done _ _ rfl
              (by simp [countTerminal_snoc, Act.isTerminal, hc0]) rfl
              (by simp [Session.cleanupTimers, hesp]) rfl
        · exact invC1_done _ _ rfl
            (by simp [countTerminal_snoc, Act.isTerminal, hc0]) rfl
            (by simp [Session.cleanupTimers, hesp]) rfl
    · exact hclean

theorem invC1_click (env : Env) (b : Bool) (l : LinkData) :
    InvC1 (step env (initSt b) (Ev.click l)) := by
  rcases onClick_cases env (initSt b) l with h | ⟨st1, hst1, h | ⟨a, hres, h⟩⟩
  · simp only [step, h]
    refine ⟨by simp [initSt, countTerminal], fun _ => ⟨rfl, rfl⟩, ?_⟩
    intro s hs
    cases hs
  · rcases hst1 with rfl | rfl <;> simp only [step, h]
    all_goals
      refine ⟨?_, fun _ => ⟨rfl, rfl⟩, ?_⟩
      · simp [initSt, countTerminal, List.countP_cons, Act.isTerminal]
      · intro s hs
        cases hs
  · rcases hst1 with rfl | rfl <;> simp only [step, h]
    all_goals
      refine ⟨?_, ?_, ?_⟩
      · simp [initSt, countTerminal, List.countP_cons, attemptAct_not_terminal]
      · intro hn
        cases hn
      · intro s hs
        simp only [Option.some.injEq] at hs
        rw [← hs]
        refine ⟨?_, ?_, ?_⟩
        · intro hfp
          exact ⟨by simp [initSt, countTerminal, List.countP_cons, attemptAct_not_terminal], rfl⟩
        · intro hE
          cases hE
        · intro hsf
          refine ⟨rfl, ?_⟩
          show (initSt b).now + fallbackDelay env < (initSt b).now + fallbackDelay env + 500
          omega

theorem invC1_run (env : Env) (evs : List Ev) (st stF : St)
    (hInv : InvC1 st)
    (hevs : ∀ e ∈ evs, e.isClick = false)
    (hrun : runOrd env st evs = some stF) : InvC1 stF := by
  induction evs generalizing st with
  | nil =>
    unfold runOrd runWith at hrun
    cases hrun
    exact hInv
  | cons e es ih =>
    unfold runOrd runWith at hrun
    split at hrun
    next hen =>
      exact ih (step env st e)
        (invC1_step env st e hInv hen (hevs e (by simp)))
        (fun e2 he2 => hevs e2 (by simp [he2]))
        hrun
    next => cases hrun

/-- The facts `InvC2` needs about an `https://…` string. -/
theorem https_goodWeb (u : String) (h : strStartsWith u "https://" = true) :
    u ≠ "" ∧ u ≠ "#" ∧ absolutizeWebUrl u = u := by
  refine ⟨?_, ?_, ?_⟩
  · intro he
    subst he
    exact absurd h (by decide)
  · intro he
    subst he
    exact absurd h (by decide)
  · unfold absolutizeWebUrl
    rw [h]
    simp

theorem gmailComposeUrl_https (e n : String) :
    strStartsWith (gmailComposeUrl e n) "https://" = true := by
  unfold gmailComposeUrl strStartsWith
  simp only [strToList_append, List.append_assoc]
  exact charsStartWith_append _ _ _ (by decide)

theorem gmailAppUrl_scheme (e n : String) :
    strStartsWith (gmailAppUrl e n) "googlegmail://" = true := by
  unfold gmailAppUrl strStartsWith
  simp only [strToList_append, List.append_assoc]
  exact charsStartWith_append _ _ _ (by decide)

theorem gmailAppUrl_ne_empty (e n : String) : gmailAppUrl e n ≠ "" := by
  intro he
  have h := gmailAppUrl_scheme e n
  rw [he] at h
  exact absurd h (by decide)

set_option maxHeartbeats 2000000 in
/-- Every deep link `resolveAppUrl` produces is either a plain scheme
string or the Gmail email chain. -/
theorem resolveAppUrl_shapes (env : Env) (l : LinkData) (a : AppUrl)
    (h : resolveAppUrl env l = some a) :
    (∃ u, a = AppUrl.simple u) ∨
    (∃ e n, a = AppUrl.emailChain (gmailAppUrl e n) (mailtoUrlOf e n) (gmailComposeUrl e n)) := by
  unfold resolveAppUrl buildAndroidDeepLink buildIOSDeepLink at h
  dsimp only at h
  repeat' split at h
  all_goals (cases h <;> (first | exact Or.inl ⟨_, rfl⟩ | exact Or.inr ⟨_, _, rfl⟩))

theorem reachedIn_append (acts l2 : List Act) (w : String)
    (h : reachedIn acts w) : reachedIn (acts ++ l2) w := by
  rcases h with h | ⟨q, h⟩
  · exact Or.inl (List.mem_append_left _ h)
  · exact Or.inr ⟨q, List.mem_append_left _ h⟩

theorem reachedIn_last_nav (acts : List Act) (w : String) :
    reachedIn (acts ++ [Act.navigate w]) w :=
  Or.inl (List.mem_append_right _ (by simp))

theorem reachedIn_last_show (acts : List Act) (q w : String) :
    reachedIn (acts ++ [Act.showModal q w]) w :=
  Or.inr ⟨q, List.mem_append_right _ (by simp)⟩

theorem jsOr_of_ne (u v : String) (h : u ≠ "") : jsOr u v = u := by
  unfold jsOr
  rw [if_neg h]

/-- Under the modal-visibility bookkeeping of `InvC2`, a
`showAppDownloadModal` call on a valid platform and an `https://`
target leaves the target reached. -/
theorem showModal_reached (st : St) (p u : String)
    (hhttps : strStartsWith u "https://" = true) (hp : p ≠ "")
    (hpre : (st.dom.modalActive = true ∨ st.modal.isClosed = true) → reachedIn st.acts u) :
    reachedIn (showAppDownloadModal st p u).acts u := by
  by_cases hact : st.dom.modalActive = true
  · have hr := hpre (Or.inl hact)
    rcases showAppDownloadModal_cases st p u with h | h | h <;> rw [h]
    · exact hr
    · exact reachedIn_append _ _ _ hr
    · exact reachedIn_append _ _ _ hr
  · by_cases hcl : st.modal.isClosed = true
    · have hr := hpre (Or.inr hcl)
      rcases showAppDownloadModal_cases st p u with h | h | h <;> rw [h]
      · exact hr
      · exact reachedIn_append _ _ _ hr
      · exact reachedIn_append _ _ _ hr
    · obtain ⟨hne, hnh, habs⟩ := https_goodWeb u hhttps
      rcases showAppDownloadModal_emits st p u (by simpa using hact) (by simpa using hcl)
          hne hnh hp with h | h <;> rw [h]
      · exact reachedIn_last_nav _ _
      · rw [habs]
        exact reachedIn_last_show _ _ _

theorem invC2_mapSession (l : LinkData) (st : St) (hInv : InvC2 l st) (f : Session → Session)
    (hf : ∀ s, s.appOpened = false → s.detectionConfirmed = false →
      (f s).appOpened = false ∧ (f s).detectionConfirmed = false ∧
      (f s).urlToUse = s.urlToUse ∧ (f s).finalWebUrl = s.finalWebUrl ∧
      (f s).fallbackPending = s.fallbackPending ∧ (f s).emailSecPending = s.emailSecPending) :
    InvC2 l { st with session := st.session.map f } := by
  obtain ⟨hhid, hnone, hsome⟩ := hInv
  refine ⟨hhid, ?_, ?_⟩
  · intro h
    rcases hs : st.session with _ | s
    · exact hnone hs
    · rw [hs] at h
      cases h
  · intro s2 hs2
    rcases hs : st.session with _ | s <;> rw [hs] at hs2
    · cases hs2
    · simp only [Option.map_some', Option.some.injEq] at hs2
      obtain ⟨ho, hc, hu, hh, hm, hd, he⟩ := hsome s hs
      obtain ⟨f1, f2, f3, f4, f5, f6⟩ := hf s ho hc
      rw [← hs2]
      refine ⟨f1, f2, by rw [f3, f4]; exact hu, by rw [f3]; exact hh,
        by rw [f3]; exact hm, ?_, ?_⟩
      · rw [f5, f6, f3]
        exact hd
      · rw [f5, f6]
        exact he

/-- An `https://` web URL and a resolver-shaped app URL give a session
whose two web fields agree on an `https://` target. -/
theorem mkSession_webTarget (env : Env) (now : Nat) (hidden : Bool) (a : AppUrl)
    (webUrl platform : String)
    (hweb : strStartsWith webUrl "https://" = true)
    (hshape : (∃ u, a = AppUrl.simple u) ∨
      (∃ e n, a = AppUrl.emailChain (gmailAppUrl e n) (mailtoUrlOf e n) (gmailComposeUrl e n))) :
    (mkSession env now hidden a webUrl platform).urlToUse =
      (mkSession env now hidden a webUrl platform).finalWebUrl ∧
    strStartsWith (mkSession env now hidden a webUrl platform).urlToUse "https://" = true := by
  rcases hshape with ⟨u, rfl⟩ | ⟨e, n, rfl⟩
  · exact ⟨rfl, hweb⟩
  · have hw := gmailComposeUrl_https e n
    have hwne : gmailComposeUrl e n ≠ "" := (https_goodWeb _ hw).1
    have hpne := gmailAppUrl_ne_empty e n
    constructor
    · show (if gmailComposeUrl e n ≠ "" then gmailComposeUrl e n else webUrl) =
        (if gmailAppUrl e n ≠ "" then jsOr (gmailComposeUrl e n) webUrl else webUrl)
      rw [if_pos hwne, if_pos hpne]
      unfold jsOr
      rw [if_neg hwne]
    · show strStartsWith
        (if gmailComposeUrl e n ≠ "" then gmailComposeUrl e n else webUrl) "https://" = true
      rw [if_pos hwne]
      exact hw

/-- A click on a link with an `https://` web URL and a platform
establishes `InvC2` from the idle page. -/
theorem invC2_click (env : Env) (b : Bool) (l : LinkData)
    (hweb : strStartsWith l.href "https://" = true) (hplat : l.platform ≠ "") :
    InvC2 l (step env (initSt b) (Ev.click l)) := by
  have hne : l.href ≠ "" := (https_goodWeb _ hweb).1
  simp only [step]
  unfold onClick
  rw [if_neg (by simp [hne, hplat])]
  rcases hres : resolveAppUrl env l with _ | a
  · simp only []
    rw [if_neg (show ¬((initSt b).modal.isClosed = true) by simp [initSt])]
    refine ⟨rfl, ?_, ?_⟩
    · intro _
      exact ⟨rfl, rfl, Or.inl (by simp [initSt])⟩
    · intro s hs
      cases hs
  · simp only []
    rw [if_neg (show ¬((initSt b).modal.isClosed = true) by simp [initSt])]
    unfold openWithFallback
    dsimp only
    rw [attemptOpenApp_eq]
    obtain ⟨hu, hh⟩ := mkSession_webTarget env (initSt b).now (initSt b).dom.hidden a
      l.href l.platform hweb (resolveAppUrl_shapes env l a hres)
    refine ⟨rfl, ?_, ?_⟩
    · intro h
      cases h
    · intro s hs
      simp only [Option.some.injEq] at hs
      rw [← hs]
      refine ⟨rfl, rfl, hu, hh, ?_, ?_, Or.inr rfl⟩
      · intro hmc
        rcases hmc with hma | hic
        · simp [initSt] at hma
        · simp [initSt] at hic
      · intro hfp
        simp [mkSession] at hfp

theorem reached_or_mono (acts l2 : List Act) (w : String) (b : Prop)
    (h : reachedIn acts w ∨ b) : reachedIn (acts ++ l2) w ∨ b :=
  h.elim (fun r => Or.inl (reachedIn_append _ _ _ r)) Or.inr

theorem invC2_step (env : Env) (l : LinkData) (st : St) (e : Ev)
    (hInv : InvC2 l st) (hen : enabledAny st e = true)
    (hnc : e.isClick = false) (hph : e.isPagehide = false) (hsh : e.isSetHiddenTrue = false) :
    InvC2 l (step env st e) := by
  obtain ⟨hhid, hnone, hsess⟩ := hInv
  cases e with
  | click lnk => simp [Ev.isClick] at hnc
  | timePasses d => exact ⟨hhid, hnone, hsess⟩
  | setHidden b =>
    cases b
    · exact ⟨rfl, hnone, hsess⟩
    · simp [Ev.isSetHiddenTrue] at hsh
  | visibilityChange =>
    refine invC2_mapSession l st ⟨hhid, hnone, hsess⟩ _ ?_
    intro s ho hc
    dsimp only
    split
    · rw [hhid, Session.checkOpened_not_hidden _ _ hc]
      exact ⟨ho, hc, rfl, rfl, rfl, rfl⟩
    · exact ⟨ho, hc, rfl, rfl, rfl, rfl⟩
  | pagehide => simp [Ev.isPagehide] at hph
  | blur =>
    refine invC2_mapSession l st ⟨hhid, hnone, hsess⟩ _ ?_
    intro s ho hc
    dsimp only
    split
    · exact ⟨ho, hc, rfl, rfl, rfl, rfl⟩
    · exact ⟨ho, hc, rfl, rfl, rfl, rfl⟩
  | focus =>
    refine invC2_mapSession l st ⟨hhid, hnone, hsess⟩ _ ?_
    intro s ho hc
    dsimp only
    split <;> exact ⟨ho, hc, rfl, rfl, rfl, rfl⟩
  | intervalTick =>
    refine invC2_mapSession l st ⟨hhid, hnone, hsess⟩ _ ?_
    intro s ho hc
    dsimp only
    split
    · unfold Session.intervalTick
      rw [hhid, Session.checkOpened_not_hidden _ _ hc]
      simp only []
      repeat' split
      all_goals exact ⟨ho, hc, rfl, rfl, rfl, rfl⟩
    · exact ⟨ho, hc, rfl, rfl, rfl, rfl⟩
  | fireVisibilityTimer =>
    refine invC2_mapSession l st ⟨hhid, hnone, hsess⟩ _ ?_
    intro s ho hc
    dsimp only
    unfold Session.fireVisTimer
    rw [hhid]
    simp only []
    split
    · rw [Session.checkOpened_not_hidden _ _
        (show Session.detectionConfirmed { s with visPending := false } = false from hc)]
      exact ⟨ho, hc, rfl, rfl, rfl, rfl⟩
    · exact ⟨ho, hc, rfl, rfl, rfl, rfl⟩
  | fireFallbackTimer =>
    simp only [step]
    unfold fireFallback
    rcases hs : st.session with _ | s0
    · exact ⟨hhid, hnone, hsess⟩
    · obtain ⟨ho, hc, hu, hh, hm, hd, he⟩ := hsess s0 hs
      have hne : s0.urlToUse ≠ "" := (https_goodWeb _ hh).1
      have hjs : jsOr s0.urlToUse s0.finalWebUrl = s0.urlToUse := jsOr_of_ne _ _ hne
      simp only []
      rw [hjs]
      split
      · split
        · split
          · -- the email chain: attempt the secondary URL, arm the inner timer
            simp only [attemptOpenApp_eq]
            refine ⟨hhid, fun h => by simp at h, ?_⟩
            intro s hs2
            simp only [Option.some.injEq] at hs2
            rw [← hs2]
            exact ⟨ho, hc, hu, hh, fun hmc => reachedIn_append _ _ _ (hm hmc),
              fun _ => Or.inr rfl, Or.inl rfl⟩
          · simp_all
        · split
          · -- mobile with a platform: show the modal
            rename_i hmob
            have hp : s0.detectedPlatform ≠ "" := by
              simp only [Bool.and_eq_true, decide_eq_true_eq] at hmob
              exact hmob.2
            have hre := showModal_reached { st with session := some s0.cleanupTimers }
              s0.detectedPlatform s0.urlToUse hh hp hm
            rcases showAppDownloadModal_cases { st with session := some s0.cleanupTimers }
                s0.detectedPlatform s0.urlToUse with hcs | hcs | hcs <;> rw [hcs] at hre ⊢ <;>
              exact ⟨hhid, fun h => by simp at h, fun s hs2 => by
                simp only [Option.map_some', Option.some.injEq] at hs2
                rw [← hs2]
                exact ⟨ho, hc, hu, hh, fun _ => hre, fun _ => Or.inl hre, Or.inl rfl⟩⟩
          · -- desktop or no platform: navigate directly
            refine ⟨hhid, fun h => by simp at h, ?_⟩
            intro s hs2
            simp only [Option.some.injEq] at hs2
            rw [← hs2]
            exact ⟨ho, hc, hu, hh, fun _ => reachedIn_last_nav _ _,
              fun _ => Or.inl (reachedIn_last_nav _ _), Or.inl rfl⟩
      · simp_all
  | fireSafetyNetTimer =>
    simp only [step]
    unfold fireSafetyNet
    rcases hs : st.session with _ | s0
    · exact ⟨hhid, hnone, hsess⟩
    · obtain ⟨ho, hc, hu, hh, hm, hd, he⟩ := hsess s0 hs
      have hne : s0.urlToUse ≠ "" := (https_goodWeb _ hh).1
      obtain ⟨_, _, habs⟩ := https_goodWeb _ hh
      have hjs : jsOr s0.urlToUse s0.finalWebUrl = s0.urlToUse := jsOr_of_ne _ _ hne
      simp only []
      rw [hjs]
      split
      · rcases showAppDownloadModal_cases { st with session := some { s0 with safetyPending := false } }
            s0.detectedPlatform s0.urlToUse with hcs | hcs | hcs <;> rw [hcs]
        · exact ⟨hhid, fun h => by simp at h, fun s hs2 => by
            simp only [Option.some.injEq] at hs2
            rw [← hs2]
            exact ⟨ho, hc, hu, hh, hm, hd, he⟩⟩
        · exact ⟨hhid, fun h => by simp at h, fun s hs2 => by
            simp only [Option.some.injEq] at hs2
            rw [← hs2]
            exact ⟨ho, hc, hu, hh, fun hmc => reachedIn_append _ _ _ (hm hmc),
              fun hfp => reached_or_mono _ _ _ _ (hd hfp), he⟩⟩
        · exact ⟨hhid, fun h => by simp at h, fun s hs2 => by
            simp only [Option.map_some', Option.some.injEq] at hs2
            rw [← hs2]
            exact ⟨ho, hc, hu, hh, fun _ => by rw [habs]; exact reachedIn_last_show _ _ _,
              fun hfp => reached_or_mono _ _ _ _ (hd hfp), he⟩⟩
      · exact ⟨hhid, fun h => by simp at h, fun s hs2 => by
          simp only [Option.some.injEq] at hs2
          rw [← hs2]
          exact ⟨ho, hc, hu, hh, hm, hd, he⟩⟩
  | fireEmailSecondaryTimer =>
    simp only [step]
    unfold fireEmailSecondary
    rcases hs : st.session with _ | s0
    · exact ⟨hhid, hnone, hsess⟩
    · obtain ⟨ho, hc, hu, hh, hm, hd, he⟩ := hsess s0 hs
      have hne : s0.urlToUse ≠ "" := (https_goodWeb _ hh).1
      have hjs : jsOr s0.urlToUse s0.finalWebUrl = s0.urlToUse := jsOr_of_ne _ _ hne
      simp only []
      rw [hjs]
      split
      · split
        · -- the email modal on mobile
          have hre := showModal_reached { st with session := some { s0 with emailSecPending := false } }
            "email" s0.urlToUse hh (by decide) hm
          rcases showAppDownloadModal_cases { st with session := some { s0 with emailSecPending := false } }
              "email" s0.urlToUse with hcs | hcs | hcs <;> rw [hcs] at hre ⊢ <;>
            exact ⟨hhid, fun h => by simp at h, fun s hs2 => by
              simp only [Option.map_some', Option.some.injEq] at hs2
              rw [← hs2]
              exact ⟨ho, hc, hu, hh, fun _ => hre, fun _ => Or.inl hre, Or.inr rfl⟩⟩
        · -- navigate to the final web URL
          rw [← hu]
          refine ⟨hhid, fun h => by simp at h, ?_⟩
          intro s hs2
          simp only [Option.some.injEq] at hs2
          rw [← hs2]
          exact ⟨ho, hc, rfl, hh, fun _ => reachedIn_last_nav _ _,
            fun _ => Or.inl (reachedIn_last_nav _ _), Or.inr rfl⟩
      · simp_all
  | fireModalResetTimer =>
    simp only [step]
    unfold fireModalReset
    split
    · exact ⟨hhid, hnone, hsess⟩
    · rename_i d rest heq
      refine ⟨hhid, ?_, ?_⟩
      · intro h
        obtain ⟨_, hrt, _⟩ := hnone h
        rw [hrt] at heq
        simp at heq
      · intro s hs2
        obtain ⟨ho, hc, hu, hh, hm, hd, he⟩ := hsess s hs2
        refine ⟨ho, hc, hu, hh, ?_, hd, he⟩
        intro hmc
        rcases hmc with hma | hic
        · exact hm (Or.inl hma)
        · simp at hic
  | userCloseModal =>
    simp only [step, closeModal_eq]
    have hma : st.dom.modalActive = true := by
      simp only [enabledAny, Bool.and_eq_true] at hen
      exact hen.2
    rcases hs : st.session with _ | s0
    · obtain ⟨hmact, _, _⟩ := hnone hs
      rw [hmact] at hma
      simp at hma
    · obtain ⟨ho, hc, hu, hh, hm, hd, he⟩ := hsess s0 hs
      have hre := hm (Or.inl hma)
      refine ⟨hhid, fun h => by simp at h, ?_⟩
      intro s hs2
      simp only [Option.map_some', Option.some.injEq] at hs2
      rw [← hs2]
      exact ⟨ho, hc, hu, hh, fun _ => reachedIn_append _ _ _ hre,
        fun _ => Or.inl (reachedIn_append _ _ _ hre), he⟩

theorem invC2_run (env : Env) (l : LinkData) (evs : List Ev) (st stF : St)
    (hInv : InvC2 l st)
    (hevs : ∀ e ∈ evs, e.isClick = false ∧ e.isPagehide = false ∧ e.isSetHiddenTrue = false)
    (hrun : runAny env st evs = some stF) : InvC2 l stF := by
  induction evs generalizing st with
  | nil =>
    unfold runAny runWith at hrun
    cases hrun
    exact hInv
  | cons e es ih =>
    unfold runAny runWith at hrun
    split at hrun
    · rename_i hen
      exact ih (step env st e)
        (invC2_step env l st e hInv hen (hevs e (by simp)).1 (hevs e (by simp)).2.1
          (hevs e (by simp)).2.2)
        (fun e2 he2 => hevs e2 (by simp [he2]))
        hrun
    · cases hrun

/-! ## Theorems for the claims -/

/-- C9 (counterexample): the claim says exactly one of
`isMobile`/`isDesktop` is true for every environment snapshot.  For a
user agent matching neither the mobile nor the desktop pattern list and
with no coarse-pointer/hover/touch signals, both classifiers return
`false`. -/
theorem c9_counterexample :
    isMobile neitherEnv = false ∧ isDesktop neitherEnv = false :=
  ⟨rfl, rfl⟩

/-- C9 (amended): at most one of `isMobile`/`isDesktop` is true — they
are mutually exclusive (a desktop verdict needs a viewport wider than
768 and a non-mobile user agent, while a mobile verdict needs a mobile
user agent or a viewport of at most 768) — but they are not exhaustive. -/
theorem c9_at_most_one_of_mobile_desktop (env : Env) :
    (isMobile env && isDesktop env) = false := by
  unfold isMobile isDesktop
  by_cases h : matchAnyCI mobileUAPats env.ua = true
  · simp [h]
  · simp only [Bool.not_eq_true] at h
    rcases le_or_lt env.innerWidth 768 with hle | hgt
    · simp [h, Nat.not_lt.mpr hle]
    · simp [h, Nat.not_le.mpr hgt]

/-- C10: token extraction is total; on every input the URL-parse
failure branch is caught and yields the empty string. -/
theorem c10_parse_failure_yields_empty (url : String)
    (h : parseURL url = none) : getUsernameFromUrl url = "" := by
  simp [getUsernameFromUrl, h]

/-- Witness for C10 at the non-URL input `"not a url"`. -/
theorem c10_witness :
    parseURL "not a url" = none ∧ getUsernameFromUrl "not a url" = "" :=
  ⟨rfl, c10_parse_failure_yields_empty "not a url" rfl⟩

/-- C7: `"https://instagram.com/alice"` extracts `"alice"`;
`"https://instagram.com/"` extracts the empty token, the iOS deep-link
builder omits the primary-app candidate (`none`), and the click on such
a link resolves to a direct navigation to the web URL only (no session,
no app attempt). -/
theorem c7_token_extraction :
    getUsernameFromUrl "https://instagram.com/alice" = "alice" ∧
    getUsernameFromUrl "https://instagram.com/" = "" ∧
    buildIOSDeepLink "instagram" "https://instagram.com/" igLinkNoUser = none ∧
    (runAny iosEnv (initSt true) [Ev.click igLinkNoUser]).map
      (fun st => (st.acts, st.session.isNone)) =
      some ([Act.navigate "https://instagram.com/"], true) :=
  ⟨rfl, rfl, rfl, rfl⟩

/-- C8 (counterexample): the claim says the primary observation window
is roughly 1 second on mobile.  The code uses 1500 ms
(`isMobile() ? 1500 : 500`), which is not within a 25% tolerance of
1000 ms. -/
theorem c8_counterexample :
    fallbackDelay mobileEnv = 1500 ∧ isMobile mobileEnv = true ∧
    ¬(750 ≤ fallbackDelay mobileEnv ∧ fallbackDelay mobileEnv ≤ 1250) :=
  ⟨rfl, rfl, by decide⟩

/-- C8 (amended): the primary observation window before fallback is
1.5 seconds when the environment is classified mobile and 0.5 seconds
when it is not. -/
theorem c8_observation_window (env : Env) :
    (fallbackDelay env = 1500 ∧ isMobile env = true) ∨
    (fallbackDelay env = 500 ∧ isMobile env = false) := by
  unfold fallbackDelay
  cases h : isMobile env <;> simp [h]

/-- C6 (counterexample): the claim says a navigation attempt that
throws is treated identically to a detection timeout, advancing to the
next candidate immediately without waiting out the observation window.
In the environment where the Instagram scheme navigation throws, the
state right after the click has: the caught failure as the only act (no
next-candidate attempt, no terminal action), and the primary
observation-window timer still pending with its full 1500 ms deadline —
the orchestrator did not advance. -/
theorem c6_counterexample :
    (runAny throwEnv (initSt true) [Ev.click igLink]).map
      (fun st => (st.acts, countTerminal st.acts,
        st.session.map (fun s => (s.fallbackPending, s.fallbackDeadline)))) =
    some ([Act.attemptFailed igUri], 0, some (true, 1500)) :=
  rfl

/-- C6 (amended): the exception is caught locally (the handler does not
crash and detection stays armed), but the orchestrator advances only
when the observation-window timer fires: at 1500 ms the fallback timer
performs the terminal action. -/
theorem c6_exception_caught_waits_out_window :
    (runAny throwEnv (initSt true)
      [Ev.click igLink, Ev.timePasses 1500, Ev.fireFallbackTimer]).map
      (fun st => st.acts) =
    some [Act.attemptFailed igUri, Act.showModal "instagram" igWeb] :=
  rfl

/-- C3: starting session B (second click) while session A is armed does
NOT remove A's document/window listeners (they remain armed), and a
hide event dispatched after B starts triggers A's detection as well
(A's `appOpened`/`detectionConfirmed` become true) — the code performs
no cross-session cancellation. -/
theorem c3_stale_session_not_cancelled :
    ((run2 mobileEnv initSt2
        [Ev2.click2 igLink, Ev2.timePasses2 100, Ev2.click2 fbLink]).sessA.map
        (fun s => s.listenersArmed) = some true) ∧
    ((run2 mobileEnv initSt2
        [Ev2.click2 igLink, Ev2.timePasses2 100, Ev2.click2 fbLink,
         Ev2.timePasses2 100, Ev2.setHidden2 true, Ev2.visibilityChange2]).sessA.map
        (fun s => (s.appOpened, s.detectionConfirmed)) = some (true, true)) :=
  ⟨rfl, rfl⟩

/-- C4: a dismissed modal is NOT terminal.  Concrete interleaving for
one Action (mobile Instagram click): the safety-net timer fires at
2500 ms (out of deadline order, ahead of the still-pending primary
timer) and shows the modal; the user dismisses it; the 500 ms
`isClosed` reset fires; the late primary fallback timer then fires and
re-shows the modal — a late-arriving fallback trigger reopens the
dismissed modal. -/
theorem c4_late_trigger_reopens_dismissed_modal :
    (runAny mobileEnv (initSt true)
      [Ev.click igLink, Ev.timePasses 2500, Ev.fireSafetyNetTimer,
       Ev.userCloseModal, Ev.timePasses 500, Ev.fireModalResetTimer,
       Ev.fireFallbackTimer]).map (fun st => st.acts) =
    some [Act.attempt igUri, Act.showModal "instagram" igWeb, Act.dismiss,
          Act.showModal "instagram" igWeb] :=
  rfl

/-- C1 (counterexample): the claim says the terminal action fires at
most once per Action for every interleaving including out-of-order
arrivals.  With the modal element absent from the DOM and the
safety-net timer firing ahead of the still-pending primary timer, the
single Action performs two terminal navigations. -/
theorem c1_counterexample :
    (runAny mobileEnv (initSt false)
      [Ev.click igLink, Ev.timePasses 2500, Ev.fireSafetyNetTimer,
       Ev.fireFallbackTimer]).map (fun st => (countTerminal st.acts, st.acts)) =
    some (2, [Act.attempt igUri, Act.navigate igWeb, Act.navigate igWeb]) :=
  rfl

/-- C1 (amended): under in-order timer delivery, an Action performs at
most one terminal action. -/
theorem c1_terminal_at_most_once_inorder (env : Env) (b : Bool) (l : LinkData)
    (rest : List Ev) (stF : St)
    (hrest : ∀ e ∈ rest, e.isClick = false)
    (hrun : runOrd env (initSt b) (Ev.click l :: rest) = some stF) :
    countTerminal stF.acts ≤ 1 := by
  unfold runOrd runWith at hrun
  split at hrun
  · exact (invC1_run env rest (step env (initSt b) (Ev.click l)) stF
      (invC1_click env b l) hrest hrun).1
  · cases hrun

theorem c1_terminal_at_most_once_inorder_witness :
    (∀ e ∈ c1Rest, e.isClick = false) ∧ countTerminal c1FinalSt.acts ≤ 1 :=
  ⟨by decide,
   c1_terminal_at_most_once_inorder mobileEnv true igLink c1Rest c1FinalSt (by decide) (by rfl)⟩

/-- C5: while `document.hidden` never becomes true (no hide, no
pagehide) — in particular across any blur with a quick focus return —
the detector never confirms app-opened, and the blur-validation
debounce delay lies in the stated 100–300 ms band. -/
theorem c5_blur_without_hide_never_confirms (env : Env) (b : Bool) (evs : List Ev) (stF : St)
    (hsig : ∀ e ∈ evs, e.isPagehide = false ∧ e.isSetHiddenTrue = false)
    (hrun : runAny env (initSt b) evs = some stF) :
    (∀ s, stF.session = some s → s.appOpened = false ∧ s.detectionConfirmed = false) ∧
    100 ≤ visibilityTimerDelayMs ∧ visibilityTimerDelayMs ≤ 300 := by
  have h := invC5_run env evs (initSt b) stF ⟨rfl, fun s hs => by cases hs⟩ hsig hrun
  exact ⟨h.2, by decide, by decide⟩

theorem c5_blur_without_hide_never_confirms_witness :
    (∀ e ∈ c5Evs, e.isPagehide = false ∧ e.isSetHiddenTrue = false) ∧
    ((∀ s, c5FinalSt.session = some s → s.appOpened = false ∧ s.detectionConfirmed = false) ∧
     100 ≤ visibilityTimerDelayMs ∧ visibilityTimerDelayMs ≤ 300) :=
  ⟨by decide, c5_blur_without_hide_never_confirms iosEnv true c5Evs c5FinalSt (by decide) (by rfl)⟩

/-- C2: for any Action on an `https://` link with a platform, under any
interleaving of non-click events in which the page never hides, once
the final state has neither the primary fallback timer nor the email
secondary timer still pending, the run has reached an `https://` web
candidate — by direct navigation or by the modal's browser option. -/
theorem c2_guaranteed_web_fallback (env : Env) (b : Bool) (l : LinkData) (rest : List Ev) (stF : St)
    (hweb : strStartsWith l.href "https://" = true) (hplat : l.platform ≠ "")
    (hrest : ∀ e ∈ rest, e.isClick = false ∧ e.isPagehide = false ∧ e.isSetHiddenTrue = false)
    (hrun : runAny env (initSt b) (Ev.click l :: rest) = some stF)
    (hdone : ∀ s, stF.session = some s → s.fallbackPending = false ∧ s.emailSecPending = false) :
    ∃ w, strStartsWith w "https://" = true ∧ reachedIn stF.acts w := by
  unfold runAny runWith at hrun
  split at hrun
  · have hInv := invC2_run env l rest (step env (initSt b) (Ev.click l)) stF
      (invC2_click env b l hweb hplat) hrest hrun
    obtain ⟨hhid, hnone, hsess⟩ := hInv
    rcases hsF : stF.session with _ | s
    · obtain ⟨_, _, hre⟩ := hnone hsF
      exact ⟨l.href, hweb, hre⟩
    · obtain ⟨_, _, hu, hh, hm, hd, he⟩ := hsess s hsF
      obtain ⟨hfp, hes⟩ := hdone s hsF
      rcases hd hfp with hre | hesT
      · exact ⟨s.urlToUse, hh, hre⟩
      · rw [hesT] at hes
        cases hes
  · cases hrun

theorem c2_guaranteed_web_fallback_witness :
    ∃ w, strStartsWith w "https://" = true ∧ reachedIn c2FinalSt.acts w :=
  c2_guaranteed_web_fallback mobileEnv true igLink c2Rest c2FinalSt (by decide) (by decide)
    (by decide) (by rfl) (by intro s hs; cases hs; exact ⟨rfl, rfl⟩)

end SocialDeepLinks
